import Mathlib

/-!
Verification development for the PicoDVI UART terminal (`src/software/apps/my_terminal/main.c`).

The C sources are shallowly embedded: global mutable state becomes explicit
state records (`UartState` for the ingress ring buffer, `Machine` for the
terminal/screen state), and every C function becomes a Lean state transformer
with the same name.  Machine integers are modelled as `Nat` with explicit
masking/mod where the C width matters (`uint8_t` parameter cells are `% 256`,
the 32-bit colour words are manipulated through 32-bit masks, `int`-to-`uint16`
conversion is `% 65536`).  Byte buffers (`charbuf_back` etc.) are modelled as
total functions `Nat → Nat` from linear cell/word index to the stored value;
the C array writes become pointwise functional updates.  Hardware-only code
(DVI bring-up, DMA/TMDS encoding, watchdog, LED, timing) is outside the
claims' scope and is not modelled; the per-scanline body of `core1_main` is
modelled only as its swap decision (`core1LineStep`), since encoding reads the
front buffer without mutating terminal state.
-/

set_option maxRecDepth 100000

namespace PicoTerm

/-- Pointwise functional update: the effect of a single C array store. -/
def updF (f : Nat → Nat) (k v : Nat) : Nat → Nat := fun i => if i = k then v else f i

lemma updF_hit (f : Nat → Nat) (k v : Nat) : updF f k v k = v := by simp [updF]

lemma updF_miss (f : Nat → Nat) (k v j : Nat) (h : j ≠ k) : updF f k v j = f j := by
  simp [updF, h]

/-! ## Byte ingress queue (`uart_buffer`, `on_uart_rx`, `process_uart_buffer`)

`UART_BUFFER_SIZE` is 512; `uart_head`/`uart_tail` are the producer/consumer
indices and `uart_overflow` the advisory flag. -/

structure UartState where
  buf : Nat → Nat
  head : Nat
  tail : Nat
  overflow : Bool

/-- The queue state at startup: all statics are zero-initialised. -/
def initUart : UartState := { buf := fun _ => 0, head := 0, tail := 0, overflow := false }

/-- One byte arriving in `on_uart_rx`: advance `head` unless that would make
`head` collide with `tail`, in which case the byte is dropped and the overflow
flag raised. -/
def uartPush (s : UartState) (b : Nat) : UartState :=
  let nh := (s.head + 1) % 512
  if nh = s.tail then { s with overflow := true }
  else { s with buf := updF s.buf s.head b, head := nh }

def uartPushList (s : UartState) (l : List Nat) : UartState := l.foldl uartPush s

/-- The quantity `(uart_head - uart_tail + UART_BUFFER_SIZE) % UART_BUFFER_SIZE`
computed in `process_uart_buffer` (C `int` arithmetic after integer
promotion): the number of unread bytes currently buffered. -/
def uartOcc (s : UartState) : Int := (((s.head : Int) - (s.tail : Int)) + 512) % 512

/-- The byte sequence delivered by the `process_uart_buffer` drain loop,
including the overflow-clearing check executed after each byte.  The fuel
argument is a termination device only; `512` steps always suffice because the
ring never holds more than 511 unread bytes. -/
def uartDrain : Nat → UartState → List Nat
  | 0, _ => []
  | fuel + 1, s =>
    if s.tail = s.head then []
    else
      let c := s.buf s.tail
      let s1 : UartState := { s with tail := (s.tail + 1) % 512 }
      let s2 := if s1.overflow ∧ 128 < uartOcc s1 then { s1 with overflow := false } else s1
      c :: uartDrain fuel s2

def drainAll (s : UartState) : List Nat := uartDrain 512 s

/-! Queue lemmas. -/

/-- The contents of the software buffer after the ISR stores `l` from index `k` up. -/
def writeSeq : (Nat → Nat) → Nat → List Nat → (Nat → Nat)
  | f, _, [] => f
  | f, k, b :: bs => writeSeq (updF f k b) (k + 1) bs

lemma writeSeq_lt (l : List Nat) : ∀ f k j, j < k → writeSeq f k l j = f j := by
  induction l with
  | nil => intro f k j _; rfl
  | cons b bs ih =>
    intro f k j h
    rw [writeSeq, ih (updF f k b) (k + 1) j (by omega)]
    exact updF_miss f k b j (by omega)

lemma writeSeq_read (l : List Nat) :
    ∀ f k, (List.range' k l.length).map (writeSeq f k l) = l := by
  induction l with
  | nil => intro f k; rfl
  | cons b bs ih =>
    intro f k
    rw [List.length_cons, List.range'_succ, List.map_cons, writeSeq]
    congr 1
    · rw [writeSeq_lt bs (updF f k b) (k + 1) k (by omega)]
      exact updF_hit f k b
    · exact ih (updF f k b) (k + 1)

lemma uartPushList_append (s : UartState) (l1 l2 : List Nat) :
    uartPushList s (l1 ++ l2) = uartPushList (uartPushList s l1) l2 := by
  simp [uartPushList, List.foldl_append]

/-- Pushing while the ring has room: bytes land consecutively and `head` advances. -/
lemma uartPushList_ok (l : List Nat) :
    ∀ s : UartState, s.tail = 0 → s.head + l.length ≤ 511 →
      uartPushList s l =
        { buf := writeSeq s.buf s.head l, head := s.head + l.length, tail := 0,
          overflow := s.overflow } := by
  induction l with
  | nil =>
    intro s h1 _
    cases s
    simp_all [uartPushList, writeSeq]
  | cons b bs ih =>
    intro s h1 h2
    have hlt : s.head + 1 < 512 := by simp at h2; omega
    have hpush : uartPush s b = { s with buf := updF s.buf s.head b, head := s.head + 1 } := by
      rw [uartPush]
      have hm : (s.head + 1) % 512 = s.head + 1 := Nat.mod_eq_of_lt hlt
      rw [hm]
      rw [if_neg (by omega)]
    show uartPushList (uartPush s b) bs = _
    rw [hpush, ih _ (by simpa using h1) (by simp at h2 ⊢; omega)]
    simp [writeSeq]
    omega

/-- Pushing into a full ring (`head = 511`, `tail = 0`): every byte is dropped
and the overflow flag is raised. -/
lemma uartPush_full (s : UartState) (b : Nat) (h1 : s.tail = 0) (h2 : s.head = 511) :
    uartPush s b = { s with overflow := true } := by
  simp [uartPush, h1, h2]

lemma uartPushList_full (l : List Nat) :
    ∀ s : UartState, s.tail = 0 → s.head = 511 → l ≠ [] →
      uartPushList s l = { s with overflow := true } := by
  induction l with
  | nil => intro s _ _ h; exact absurd rfl h
  | cons b bs ih =>
    intro s h1 h2 _
    show uartPushList (uartPush s b) bs = _
    rw [uartPush_full s b h1 h2]
    rcases bs with _ | ⟨c, cs⟩
    · rfl
    · exact ih { s with overflow := true } h1 h2 (by simp)

/-- Draining a straight (unwrapped) ring yields exactly the buffered range. -/
lemma uartDrain_spec :
    ∀ (fuel : Nat) (s : UartState), s.head ≤ 511 → s.tail ≤ s.head →
      s.head - s.tail ≤ fuel →
      uartDrain fuel s = (List.range' s.tail (s.head - s.tail)).map s.buf := by
  intro fuel
  induction fuel with
  | zero =>
    intro s h1 h2 h3
    have he : s.tail = s.head := by omega
    have hz : s.head - s.tail = 0 := by omega
    simp [uartDrain, he, hz]
  | succ n ih =>
    intro s h1 h2 h3
    rw [uartDrain]
    by_cases he : s.tail = s.head
    · have hz : s.head - s.tail = 0 := by omega
      simp [he, hz]
    · have ht : s.tail < s.head := by omega
      rw [if_neg he]
      dsimp only
      have hm : (s.tail + 1) % 512 = s.tail + 1 := Nat.mod_eq_of_lt (by omega)
      have hk : s.head - s.tail = (s.head - (s.tail + 1)) + 1 := by omega
      rw [hm, hk, List.range'_succ, List.map_cons]
      congr 1
      split
      · rw [ih _ (by simpa using h1) (by simp; omega) (by simp; omega)]
      · rw [ih _ (by simpa using h1) (by simp; omega) (by simp; omega)]

/-- Pushing `l` into the startup-empty ring, `l` fitting in the 511 free cells. -/
lemma pushList_init (l : List Nat) (h : l.length ≤ 511) :
    uartPushList initUart l =
      { buf := writeSeq (fun _ => 0) 0 l, head := l.length, tail := 0, overflow := false } := by
  have := uartPushList_ok l initUart rfl (by simp [initUart]; omega)
  simpa [initUart] using this

/-- Pushing at most 511 bytes into the empty ring and draining returns them unchanged. -/
lemma pushList_small (l : List Nat) (h : l.length ≤ 511) :
    drainAll (uartPushList initUart l) = l := by
  rw [pushList_init l h]
  rw [drainAll, uartDrain_spec 512 _ (by simpa using h) (by simp) (by simp; omega)]
  simpa using writeSeq_read l (fun _ => 0) 0

/-- Pushing 512 or more bytes: the flag is raised and draining returns only the
first 511 bytes. -/
lemma pushList_big (l : List Nat) (h : 512 ≤ l.length) :
    (uartPushList initUart l).overflow = true ∧
      drainAll (uartPushList initUart l) = l.take 511 := by
  have hlen : (l.take 511).length = 511 := by simp; omega
  have hdrop : l.drop 511 ≠ [] := by
    intro hc
    have := congrArg List.length hc
    simp at this
    omega
  have h2 : uartPushList initUart l =
      { buf := writeSeq (fun _ => 0) 0 (l.take 511), head := 511, tail := 0, overflow := true } := by
    conv_lhs => rw [← List.take_append_drop 511 l]
    rw [uartPushList_append, pushList_init (l.take 511) (le_of_eq hlen), hlen,
      uartPushList_full (l.drop 511) _ rfl rfl hdrop]
  refine ⟨by rw [h2], ?_⟩
  rw [h2, drainAll, uartDrain_spec 512 _ (by simp) (by simp) (by simp)]
  have hr := writeSeq_read (l.take 511) (fun _ => 0) 0
  rw [hlen] at hr
  simpa using hr


/-! ## Claim C2 — queue conservation -/

/-- Claim C2 (counterexample): the claim allows N = capacity = 512, but the
ring buffer holds at most 511 unread bytes (`head == tail` means empty), so
pushing 512 bytes into the empty queue and draining does not return all 512
bytes — the 512th byte is dropped. -/
theorem queue_512_counterexample :
    (List.replicate 512 7).length ≤ 512 ∧
      drainAll (uartPushList initUart (List.replicate 512 7)) ≠ List.replicate 512 7 := by
  refine ⟨by simp, ?_⟩
  have hb := (pushList_big (List.replicate 512 7) (by simp)).2
  rw [hb]
  intro hc
  have := congrArg List.length hc
  simp at this

/-- Claim C2 (amended): pushing N ≤ capacity − 1 = 511 bytes into the empty
ingress ring and then draining yields the same N bytes in order; pushing more
than capacity bytes without draining sets the overflow flag and the consumer
receives exactly the first capacity − 1 = 511 bytes, in order, with no
duplicates. -/
theorem queue_conservation_amended (l1 l2 : List Nat)
    (h1 : l1.length ≤ 511) (h2 : 512 < l2.length) :
    drainAll (uartPushList initUart l1) = l1 ∧
      (uartPushList initUart l2).overflow = true ∧
      drainAll (uartPushList initUart l2) = l2.take 511 := by
  refine ⟨pushList_small l1 h1, ?_, ?_⟩
  · exact (pushList_big l2 (by omega)).1
  · exact (pushList_big l2 (by omega)).2

/-- Witness for `queue_conservation_amended` at concrete inputs. -/
theorem queue_conservation_amended_witness :
    drainAll (uartPushList initUart [1, 2, 3]) = [1, 2, 3] ∧
      (uartPushList initUart (List.replicate 513 9)).overflow = true ∧
      drainAll (uartPushList initUart (List.replicate 513 9)) = (List.replicate 513 9).take 511 :=
  queue_conservation_amended [1, 2, 3] (List.replicate 513 9) (by simp) (by simp)

/-! ## Colour model (`set_colour` packing and the menu save-loop decoding)

`COLOUR_PLANE_SIZE_WORDS = 30 * 80 * 4 / 32 = 300`.  `set_colour` packs two
bits of `fg` (nibble bits 0–1) and two bits of `bg` (nibble bits 2–3) per
colour plane into the 4-bit cell `idx % 8` of 32-bit word `idx / 8 + p * 300`.
The C expression `~(0xFu << bit)` is the 32-bit complement, modelled as XOR
with `0xFFFFFFFF`. -/

def mask32 (m : Nat) : Nat := 4294967295 ^^^ m

/-- The colour-buffer update performed by `set_colour(x, y, fg, bg)` (the loop
over the three planes, carrying `fg >>= 2; bg >>= 2`). -/
def set_colour_buf (buf : Nat → Nat) (x y fg bg : Nat) : Nat → Nat :=
  if 80 ≤ x ∨ 30 ≤ y then buf
  else
    let idx := x + y * 80
    let bit := idx % 8 * 4
    let word := idx / 8
    let r := [0, 1, 2].foldl
      (fun (st : (Nat → Nat) × Nat × Nat) p =>
        let val := (st.2.1 &&& 3) ||| ((st.2.2 <<< 2) &&& 12)
        (updF st.1 (word + p * 300)
            ((st.1 (word + p * 300) &&& mask32 (15 <<< bit)) ||| (val <<< bit)),
          st.2.1 >>> 2, st.2.2 >>> 2))
      (buf, fg, bg)
    r.1

/-- The nibble decoding used by the menu save loops (`draw_color_menu`,
`draw_cursor_menu`): walk planes 2, 1, 0 and reassemble `(fg, bg)`. -/
def unpack_cell (buf : Nat → Nat) (x y : Nat) : Nat × Nat :=
  let idx := x + y * 80
  let bit := idx % 8 * 4
  let word := idx / 8
  [2, 1, 0].foldl
    (fun (st : Nat × Nat) p =>
      let nib := (buf (word + p * 300) >>> bit) &&& 15
      ((st.1 <<< 2) ||| (nib &&& 3), (st.2 <<< 2) ||| ((nib >>> 2) &&& 3)))
    (0, 0)

lemma testBit_mask32_hi (m j : Nat) (hj : j < 32) :
    (mask32 m).testBit j = !(m.testBit j) := by
  rw [mask32, Nat.testBit_xor]
  have h32 : (4294967295 : Nat) = 2 ^ 32 - 1 := by norm_num
  rw [h32, Nat.testBit_two_pow_sub_one]
  simp [hj]

/-- Read-back of one nibble written by `set_colour`: masking out the previous
nibble and OR-ing in `val < 16` at bit offset `b ≤ 28` makes the shifted
4-bit read return exactly `val`, whatever the previous word contents. -/
lemma nib_extract (w val b : Nat) (hb : b ≤ 28) (hv : val < 16) :
    (((w &&& mask32 (15 <<< b)) ||| (val <<< b)) >>> b) &&& 15 = val := by
  apply Nat.eq_of_testBit_eq
  intro i
  rw [Nat.testBit_land, Nat.testBit_shiftRight, Nat.testBit_lor, Nat.testBit_land]
  have h15 : (15 : Nat) = 2 ^ 4 - 1 := by norm_num
  by_cases hi : i < 4
  · have hm : (mask32 (15 <<< b)).testBit (b + i) = false := by
      rw [testBit_mask32_hi _ _ (by omega), Nat.testBit_shiftLeft]
      have : b + i - b = i := by omega
      rw [this, h15, Nat.testBit_two_pow_sub_one]
      simp [hi, Nat.le_add_right]
    have hval : (val <<< b).testBit (b + i) = val.testBit i := by
      rw [Nat.testBit_shiftLeft]
      have : b + i - b = i := by omega
      simp [this, Nat.le_add_right]
    rw [hm, hval, h15, Nat.testBit_two_pow_sub_one]
    simp [hi]
  · have h16 : (16 : Nat) ≤ 2 ^ i := by
      calc (16 : Nat) = 2 ^ 4 := by norm_num
        _ ≤ 2 ^ i := Nat.pow_le_pow_right (by norm_num) (by omega)
    have hv4 : val.testBit i = false := Nat.testBit_lt_two_pow (lt_of_lt_of_le hv h16)
    rw [h15, Nat.testBit_two_pow_sub_one, hv4]
    simp [hi]

lemma scb_read0 (buf : Nat → Nat) (x y fg bg : Nat) (hx : x < 80) (hy : y < 30) :
    ∃ w, set_colour_buf buf x y fg bg ((x + y * 80) / 8 + 0 * 300) =
      (w &&& mask32 (15 <<< ((x + y * 80) % 8 * 4))) |||
        (((fg &&& 3) ||| ((bg <<< 2) &&& 12)) <<< ((x + y * 80) % 8 * 4)) := by
  unfold set_colour_buf
  rw [if_neg (by omega)]
  simp only [List.foldl]
  rw [updF_miss _ _ _ _ (by omega), updF_miss _ _ _ _ (by omega), updF_hit]
  exact ⟨_, rfl⟩

lemma scb_read1 (buf : Nat → Nat) (x y fg bg : Nat) (hx : x < 80) (hy : y < 30) :
    ∃ w, set_colour_buf buf x y fg bg ((x + y * 80) / 8 + 1 * 300) =
      (w &&& mask32 (15 <<< ((x + y * 80) % 8 * 4))) |||
        ((((fg >>> 2) &&& 3) ||| (((bg >>> 2) <<< 2) &&& 12)) <<< ((x + y * 80) % 8 * 4)) := by
  unfold set_colour_buf
  rw [if_neg (by omega)]
  simp only [List.foldl]
  rw [updF_miss _ _ _ _ (by omega), updF_hit]
  exact ⟨_, rfl⟩

lemma scb_read2 (buf : Nat → Nat) (x y fg bg : Nat) (hx : x < 80) (hy : y < 30) :
    ∃ w, set_colour_buf buf x y fg bg ((x + y * 80) / 8 + 2 * 300) =
      (w &&& mask32 (15 <<< ((x + y * 80) % 8 * 4))) |||
        (((((fg >>> 2) >>> 2) &&& 3) ||| ((((bg >>> 2) >>> 2) <<< 2) &&& 12)) <<<
          ((x + y * 80) % 8 * 4)) := by
  unfold set_colour_buf
  rw [if_neg (by omega)]
  simp only [List.foldl]
  rw [updF_hit]
  exact ⟨_, rfl⟩

/-- Reassembling the three written nibbles recovers `(fg, bg)`: checked
exhaustively over all 64 × 64 colour pairs. -/
lemma pack_decode : ∀ fg < 64, ∀ bg < 64,
    ((((0 <<< 2 ||| ((fg >>> 2 >>> 2 &&& 3 ||| bg >>> 2 >>> 2 <<< 2 &&& 12) &&& 3)) <<< 2 |||
          ((fg >>> 2 &&& 3 ||| bg >>> 2 <<< 2 &&& 12) &&& 3)) <<< 2 |||
          ((fg &&& 3 ||| bg <<< 2 &&& 12) &&& 3) : Nat),
        (((0 <<< 2 ||| ((fg >>> 2 >>> 2 &&& 3 ||| bg >>> 2 >>> 2 <<< 2 &&& 12) >>> 2 &&& 3)) <<< 2 |||
          ((fg >>> 2 &&& 3 ||| bg >>> 2 <<< 2 &&& 12) >>> 2 &&& 3)) <<< 2 |||
          ((fg &&& 3 ||| bg <<< 2 &&& 12) >>> 2 &&& 3) : Nat)) = (fg, bg) := by decide

/-! ## Claim C1 — colour round-trip -/

/-- Claim C1: for every fg and bg in 0..63, packing the pair into the 3-plane
4-bit-per-cell representation as `set_colour` does for cell (x, y) and then
decoding that cell's nibbles back as the menu save loop does yields exactly
the original pair (fg, bg), whatever the previous buffer contents. -/
theorem colour_roundtrip (buf : Nat → Nat) (x y fg bg : Nat) (hx : x < 80) (hy : y < 30)
    (hf : fg < 64) (hb : bg < 64) :
    unpack_cell (set_colour_buf buf x y fg bg) x y = (fg, bg) := by
  have hb28 : (x + y * 80) % 8 * 4 ≤ 28 := by omega
  have hv0 : ((fg &&& 3) ||| ((bg <<< 2) &&& 12)) < 16 :=
    Nat.or_lt_two_pow (n := 4) (by have := Nat.and_le_right (n := fg) (m := 3); omega)
      (by have := Nat.and_le_right (n := bg <<< 2) (m := 12); omega)
  have hv1 : (((fg >>> 2) &&& 3) ||| (((bg >>> 2) <<< 2) &&& 12)) < 16 :=
    Nat.or_lt_two_pow (n := 4) (by have := Nat.and_le_right (n := fg >>> 2) (m := 3); omega)
      (by have := Nat.and_le_right (n := (bg >>> 2) <<< 2) (m := 12); omega)
  have hv2 : ((((fg >>> 2) >>> 2) &&& 3) ||| ((((bg >>> 2) >>> 2) <<< 2) &&& 12)) < 16 :=
    Nat.or_lt_two_pow (n := 4) (by have := Nat.and_le_right (n := (fg >>> 2) >>> 2) (m := 3); omega)
      (by have := Nat.and_le_right (n := ((bg >>> 2) >>> 2) <<< 2) (m := 12); omega)
  obtain ⟨w0, e0⟩ := scb_read0 buf x y fg bg hx hy
  obtain ⟨w1, e1⟩ := scb_read1 buf x y fg bg hx hy
  obtain ⟨w2, e2⟩ := scb_read2 buf x y fg bg hx hy
  unfold unpack_cell
  simp only [List.foldl]
  rw [e0, e1, e2, nib_extract w0 _ _ hb28 hv0, nib_extract w1 _ _ hb28 hv1,
    nib_extract w2 _ _ hb28 hv2]
  exact pack_decode fg hf bg hb

/-- Witness for `colour_roundtrip` at a concrete cell and colour pair. -/
theorem colour_roundtrip_witness :
    3 < 80 ∧ 2 < 30 ∧ 45 < 64 ∧ 18 < 64 ∧
      unpack_cell (set_colour_buf (fun _ => 0) 3 2 45 18) 3 2 = (45, 18) :=
  ⟨by decide, by decide, by decide, by decide,
    colour_roundtrip (fun _ => 0) 3 2 45 18 (by decide) (by decide) (by decide) (by decide)⟩

/-! ## Terminal machine state

`Machine` gathers the global mutable state of `main.c` that the terminal logic
touches: `terminal_state_t term`, the four frame buffers, the swap flags, the
cursor-rendering state, the ANSI parser accumulators, the current colours and
cursor style, and the menu system state.  `cursor_draw_x`/`cursor_draw_y` and
`saved_cursor_x`/`saved_cursor_y` are declared as `int` initialised to −1 in C
but are unconditionally set to 0 in `main()` before any input is processed;
`saved_cursor_*` keep their C `int` type because of the `!= -1` guard in the
CSI `u` handler, while `cursor_draw_*` are only ever assigned cursor
coordinates afterwards and are modelled as `Nat`.  Diagnostic-only globals
(`input_active`, LED timers, the never-enabled `deferred_pending` path) are
omitted.  `nl_count` is a ghost counter of `new_line()` invocations used to
state line-advance claims; no modelled code reads it. -/

inductive CursorStyle where
  | solidBlock
  | underline
  | bar
  | appleI
  | shadedBlock
  | solidArrow
deriving DecidableEq

structure Term where
  cursor_x : Nat
  cursor_y : Nat
  cursor_visible : Bool
  escape_mode : Bool
  ansi_mode : Bool
  skip_next_lf : Bool
  skip_next_cr : Bool
  suppress_next_cr : Bool

structure Machine where
  term : Term
  charbuf_back : Nat → Nat
  charbuf_front : Nat → Nat
  colourbuf_back : Nat → Nat
  colourbuf_front : Nat → Nat
  swap_pending : Bool
  swap_queued : Bool
  scroll_settled : Bool
  safe_to_scroll : Bool
  buffer_dirty : Bool
  cursor_drawn : Bool
  saved_cursor_x : Int
  saved_cursor_y : Int
  cursor_draw_x : Nat
  cursor_draw_y : Nat
  saved_cursor_char : Nat
  saved_cursor_fg : Nat
  cursor_blink_counter : Nat
  ansi_params : List Nat
  ansi_buffer : List Nat
  current_fg : Nat
  current_bg : Nat
  current_cursor : CursorStyle
  theme_select_mode : Bool
  cursor_menu_mode : Bool
  bg_color_menu_mode : Bool
  fg_color_menu_mode : Bool
  color_menu_buf : List Nat
  saved_chars : Nat → Nat → Nat
  saved_fg : Nat → Nat → Nat
  saved_bg : Nat → Nat → Nat
  menu_left : Nat
  menu_top : Nat
  nl_count : Nat

/-- Two-index functional update for the `saved_chars`/`saved_fg`/`saved_bg`
menu scratch arrays. -/
def upd2 (f : Nat → Nat → Nat) (r c v : Nat) : Nat → Nat → Nat :=
  fun a b => if a = r ∧ b = c then v else f a b

/-- `set_char`: store a glyph in the back character buffer, a no-op outside
the 80 × 30 grid. -/
def set_char (s : Machine) (x y c : Nat) : Machine :=
  if x < 80 ∧ y < 30 then { s with charbuf_back := updF s.charbuf_back (x + y * 80) c }
  else s

/-- `set_colour`: pack `(fg, bg)` nibbles for cell `(x, y)` into the back
colour buffer (see `set_colour_buf`), a no-op outside the grid. -/
def set_colour (s : Machine) (x y fg bg : Nat) : Machine :=
  { s with colourbuf_back := set_colour_buf s.colourbuf_back x y fg bg }

/-- `request_swap`: idempotent two-phase swap request. -/
def request_swap (s : Machine) : Machine :=
  if s.swap_queued then s
  else { s with swap_pending := true, swap_queued := true }

/-- `perform_swap`: the bulk back-to-front copy of both buffers (done under
the spin lock in C; the lock only serialises this copy against the renderer
and carries no other state). -/
def perform_swap (s : Machine) : Machine :=
  { s with
    charbuf_front := s.charbuf_back
    colourbuf_front := s.colourbuf_back
    swap_pending := false
    swap_queued := false
    scroll_settled := true
    safe_to_scroll := true }

/-- `safe_request_swap`: the blocking variant used by the terminal loop — it
requests a swap and then performs the copy immediately itself. -/
def safe_request_swap (s : Machine) : Machine :=
  if s.buffer_dirty ∨ s.cursor_drawn ∨ s.term.cursor_visible then
    { perform_swap (request_swap s) with buffer_dirty := false }
  else s

/-- `clear_screen`: zero the colour planes, fill every cell with a space in
the current colours, and home the cursor. -/
def clear_screen (s : Machine) : Machine :=
  let s := { s with colourbuf_back := fun _ => 0 }
  let s := (List.range 30).foldl (fun s y =>
    (List.range 80).foldl (fun s x =>
      set_colour { s with charbuf_back := updF s.charbuf_back (x + y * 80) 32 }
        x y s.current_fg s.current_bg) s) s
  let s := { s with term := { s.term with cursor_x := 0, cursor_y := 0 } }
  request_swap s

/-- `scroll_up`: shift the character rows and the three colour planes up one
row (`memmove`), blank the new last row, repaint it in the current colours. -/
def scroll_up (s : Machine) : Machine :=
  let s := { s with charbuf_back := fun i =>
    if i < 2320 then s.charbuf_back (i + 80) else s.charbuf_back i }
  let s := (List.range 80).foldl
    (fun s x => { s with charbuf_back := updF s.charbuf_back (x + 2320) 32 }) s
  let s := { s with colourbuf_back := fun w =>
    if w < 900 ∧ w % 300 < 290 then s.colourbuf_back (w + 10) else s.colourbuf_back w }
  let s := (List.range 80).foldl (fun s x =>
    let idx := x + 2320
    let bit := idx % 8 * 4
    let word := idx / 8
    [0, 1, 2].foldl (fun s p =>
      { s with colourbuf_back := (updF s.colourbuf_back (word + p * 300)
          (s.colourbuf_back (word + p * 300) &&& mask32 (15 <<< bit))) }) s) s
  let s := (List.range 80).foldl (fun s x => set_colour s x 29 s.current_fg s.current_bg) s
  let s := { s with buffer_dirty := true }
  safe_request_swap s

/-- `new_line`: home the column, advance the row, scrolling when past the last
row; `nl_count` is the ghost invocation counter. -/
def new_line (s : Machine) : Machine :=
  let s := { s with nl_count := s.nl_count + 1, term := { s.term with cursor_x := 0 } }
  let s :=
    if 30 ≤ s.term.cursor_y + 1 then
      scroll_up { s with term := { s.term with cursor_y := 29 } }
    else { s with term := { s.term with cursor_y := s.term.cursor_y + 1 } }
  safe_request_swap { s with buffer_dirty := true }

/-- The decimal value accumulated in `ansi_buffer` (all entries are ASCII
digits in reachable states). -/
def digitVal (ds : List Nat) : Nat := ds.foldl (fun a d => a * 10 + (d - 48)) 0

/-- The value `atoi(ansi_buffer)` returns on this target: newlib's `atoi` is
`(int) strtol(...)`, and with 32-bit `long` `strtol` saturates at
`LONG_MAX = 2147483647` when the decimal value does not fit. -/
def atoiSat (ds : List Nat) : Nat := min (digitVal ds) 2147483647

/-- The 8-entry ANSI palette used for SGR 30–37 / 40–47. -/
def ansi_colors : List Nat := [0, 48, 12, 60, 3, 51, 15, 63]

/-- `process_ansi_code`: one SGR parameter. -/
def process_ansi_code (s : Machine) (p : Nat) : Machine :=
  if p = 0 then { s with current_fg := 63, current_bg := 0 }
  else if 30 ≤ p ∧ p ≤ 37 then { s with current_fg := ansi_colors.getD (p - 30) 0 }
  else if 40 ≤ p ∧ p ≤ 47 then { s with current_bg := ansi_colors.getD (p - 40) 0 }
  else s

/-- `process_ansi_sequence`: dispatch a completed CSI sequence on its final
byte (`J` clear, `K` erase to end of line, `H` cursor position, `m` SGR,
`s`/`u` save/restore, `A`/`B`/`C`/`D` clamped cursor moves). -/
def process_ansi_sequence (s : Machine) (params : List Nat) (c : Nat) : Machine :=
  if c = 74 then
    if params.length = 1 ∧ params.headD 0 = 2 then clear_screen s else s
  else if c = 75 then
    let s := (List.range' s.term.cursor_x (80 - s.term.cursor_x)).foldl
      (fun s x =>
        set_colour (set_char s x s.term.cursor_y 32) x s.term.cursor_y
          s.current_fg s.current_bg) s
    { s with buffer_dirty := true }
  else if c = 72 then
    let s :=
      if 1 ≤ params.length then
        { s with term := { s.term with
            cursor_y := if 0 < params.headD 0 then params.headD 0 - 1 else 0 } }
      else s
    if 2 ≤ params.length then
      { s with term := { s.term with
          cursor_x := if 0 < params.getD 1 0 then params.getD 1 0 - 1 else 0 } }
    else s
  else if c = 109 then
    params.foldl process_ansi_code s
  else if c = 115 then
    { s with saved_cursor_x := (s.term.cursor_x : Int),
             saved_cursor_y := (s.term.cursor_y : Int) }
  else if c = 117 then
    if s.saved_cursor_x ≠ -1 ∧ s.saved_cursor_y ≠ -1 then
      { s with term := { s.term with
          cursor_x := (s.saved_cursor_x % 65536).toNat,
          cursor_y := (s.saved_cursor_y % 65536).toNat } }
    else s
  else if c = 65 then
    let n := if 1 ≤ params.length ∧ 0 < params.headD 0 then params.headD 0 else 1
    { s with term := { s.term with
        cursor_y := if n ≤ s.term.cursor_y then s.term.cursor_y - n else 0 } }
  else if c = 66 then
    let n := if 1 ≤ params.length ∧ 0 < params.headD 0 then params.headD 0 else 1
    { s with term := { s.term with
        cursor_y := if s.term.cursor_y + n < 30 then s.term.cursor_y + n else 29 } }
  else if c = 67 then
    let n := if 1 ≤ params.length ∧ 0 < params.headD 0 then params.headD 0 else 1
    { s with term := { s.term with
        cursor_x := if s.term.cursor_x + n < 80 then s.term.cursor_x + n else 79 } }
  else if c = 68 then
    let n := if 1 ≤ params.length ∧ 0 < params.headD 0 then params.headD 0 else 1
    { s with term := { s.term with
        cursor_x := if n ≤ s.term.cursor_x then s.term.cursor_x - n else 0 } }
  else s

/-! ## Menu/overlay system -/

/-- ASCII codes of a string literal (all menu text is 7-bit ASCII). -/
def strCodes (t : String) : List Nat := t.data.map Char.toNat

/-- The 12 × 34 region-save loop shared verbatim by `draw_color_menu` and
`draw_cursor_menu`: snapshot glyphs and decoded colours (the plane walk is
exactly `unpack_cell`) into the `saved_*` scratch arrays. -/
def save_menu_region (s : Machine) : Machine :=
  (List.range 12).foldl (fun s row =>
    (List.range 34).foldl (fun s col =>
      let px := s.menu_left + col
      let py := s.menu_top + row
      if px < 80 ∧ py < 30 then
        let cell := unpack_cell s.colourbuf_back px py
        { s with
          saved_chars := upd2 s.saved_chars row col (s.charbuf_back (px + py * 80))
          saved_fg := upd2 s.saved_fg row col cell.1
          saved_bg := upd2 s.saved_bg row col cell.2 }
      else s) s) s

/-- `draw_color_menu`: place the menu below the cursor (clamped to the
bottom), save the covered region, draw border, title, the 8 × 8 grid of
two-digit colour codes with samples, and the prompt. -/
def draw_color_menu (s : Machine) (title prompt : List Nat) : Machine :=
  let x : Nat := 2
  let y : Nat := if s.term.cursor_y + 12 < 30 then s.term.cursor_y + 1 else 30 - 12
  let s := { s with menu_left := x - 1, menu_top := y - 1 }
  let s := save_menu_region s
  let s := set_char s s.menu_left s.menu_top 43
  let s := (List.range 32).foldl (fun s i => set_char s (x + i) s.menu_top 45) s
  let s := set_char s (s.menu_left + 32) s.menu_top 43
  let s := (List.range 10).foldl (fun s i =>
    set_char (set_char s s.menu_left (y + i) 124) (s.menu_left + 32) (y + i) 124) s
  let s := set_char s s.menu_left (s.menu_top + 10) 43
  let s := (List.range 32).foldl (fun s i => set_char s (x + i) (s.menu_top + 10) 45) s
  let s := set_char s (s.menu_left + 32) (s.menu_top + 10) 43
  let s := (List.range title.length).foldl (fun s i =>
    set_colour (set_char s (x + i) y (title.getD i 0)) (x + i) y
      s.current_fg s.current_bg) s
  let s := (List.range 8).foldl (fun s row =>
    (List.range 8).foldl (fun s col =>
      let color_idx := row * 8 + col
      let pos_x := x + col * 4
      let pos_y := y + row + 1
      let s := set_char s pos_x pos_y (color_idx / 10 + 48)
      let s := set_char s (pos_x + 1) pos_y (color_idx % 10 + 48)
      let s := set_colour s pos_x pos_y 63 color_idx
      let s := set_colour s (pos_x + 1) pos_y 63 color_idx
      let s := set_char s (pos_x + 2) pos_y 219
      set_colour s (pos_x + 2) pos_y 63 color_idx) s) s
  let s := (List.range prompt.length).foldl (fun s i =>
    set_colour (set_char s (x + i) (y + 9) (prompt.getD i 0)) (x + i) (y + 9)
      s.current_fg s.current_bg) s
  safe_request_swap { s with buffer_dirty := true }

/-- One iteration of the `restore_menu_region` loops: write back the saved
glyph and colours of scratch cell `(row, col)` when it lies on the grid. -/
def restoreCell (s : Machine) (row col : Nat) : Machine :=
  let px := s.menu_left + col
  let py := s.menu_top + row
  if px < 80 ∧ py < 30 then
    set_colour (set_char s px py (s.saved_chars row col)) px py
      (s.saved_fg row col) (s.saved_bg row col)
  else s

/-- `restore_menu_region`: write the scratch snapshot back, exactly undoing
the covered region. -/
def restore_menu_region (s : Machine) : Machine :=
  let s := (List.range 12).foldl (fun s row =>
    (List.range 34).foldl (fun s col => restoreCell s row col) s) s
  safe_request_swap { s with buffer_dirty := true }

/-- The `lines[]` text of `draw_cursor_menu` (`\xDB` and `\xB2` are the CP437
block glyphs). -/
def cursorMenuLines : List (List Nat) :=
  [strCodes "Cursor Style Menu:",
   strCodes "[1] Block        " ++ [219],
   strCodes "[2] Underline    _",
   strCodes "[3] Bar          |",
   strCodes "[4] Apple I      @",
   strCodes "[5] Shaded Block " ++ [178],
   strCodes "[6] Arrow        >",
   strCodes "Select style: "]

/-- `draw_cursor_menu`: the cursor-style picker overlay (8 text lines in a
32 × 10 box), saving the covered region first. -/
def draw_cursor_menu (s : Machine) : Machine :=
  let x : Nat := 2
  let y : Nat := if s.term.cursor_y + 12 + 1 < 30 then s.term.cursor_y + 1 else 30 - 12 - 1
  let box_width : Nat := 32
  let box_height : Nat := 8 + 2
  let s := { s with menu_left := x - 1, menu_top := y - 1 }
  let s := save_menu_region s
  let s := set_char s s.menu_left s.menu_top 43
  let s := (List.range box_width).foldl (fun s i => set_char s (x + i) s.menu_top 45) s
  let s := set_char s (s.menu_left + box_width) s.menu_top 43
  let s := (List.range (box_height - 2)).foldl (fun s i =>
    set_char (set_char s s.menu_left (y + i) 124) (s.menu_left + box_width) (y + i) 124) s
  let s := set_char s s.menu_left (s.menu_top + box_height - 1) 43
  let s := (List.range box_width).foldl
    (fun s i => set_char s (x + i) (s.menu_top + box_height - 1) 45) s
  let s := set_char s (s.menu_left + box_width) (s.menu_top + box_height - 1) 43
  let s := (List.range 8).foldl (fun s i =>
    let ln := cursorMenuLines.getD i []
    (List.range ln.length).foldl (fun s j =>
      set_colour (set_char s (x + j) (y + i) (ln.getD j 0)) (x + j) (y + i)
        s.current_fg s.current_bg) s) s
  safe_request_swap { s with buffer_dirty := true }

/-! ## `handle_char`

The C function is one long body with early `return`s; it is decomposed here
into the cursor-clearing prologue (`clearDrawnCursor`, lines 700–705), the
line-ending-suppression checks, and one Lean function per mode branch
(`hcEscape`, `hcFgMenu`, `hcBgMenu`, `hcCursorMenu`, `hcTheme`, `hcSwitch`),
with `endOfChar` the cursor-redraw epilogue (lines 913–958) that only the
`hcSwitch` paths reach — every other branch returns early in C. -/

/-- Lines 700–705: if the cursor glyph is on screen, restore the saved
character under it (with the current background). -/
def clearDrawnCursor (s : Machine) : Machine :=
  if s.cursor_drawn then
    let s1 := set_char s s.cursor_draw_x s.cursor_draw_y s.saved_cursor_char
    let s2 := set_colour s1 s.cursor_draw_x s.cursor_draw_y s.saved_cursor_fg s.current_bg
    { s2 with cursor_drawn := false, buffer_dirty := true }
  else s

def setSuppress (s : Machine) (b : Bool) : Machine :=
  { s with term := { s.term with suppress_next_cr := b } }

def setSkipLf (s : Machine) (b : Bool) : Machine :=
  { s with term := { s.term with skip_next_lf := b } }

def setSkipCr (s : Machine) (b : Bool) : Machine :=
  { s with term := { s.term with skip_next_cr := b } }

/-- The glyph drawn for each cursor style. -/
def styleGlyph : CursorStyle → Nat
  | .solidBlock => 219
  | .appleI => 64
  | .underline => 95
  | .bar => 124
  | .shadedBlock => 178
  | .solidArrow => 62

/-- Lines 913–958: the forced cursor redraw after character processing, then
`safe_request_swap()`.  Note the guard checks only `cursor_menu_mode`, and
this path does not refresh `saved_cursor_fg`. -/
def endOfChar (s : Machine) : Machine :=
  let s :=
    if s.term.cursor_visible ∧ s.cursor_menu_mode = false then
      let s :=
        if s.cursor_drawn then
          set_colour (set_char s s.cursor_draw_x s.cursor_draw_y s.saved_cursor_char)
            s.cursor_draw_x s.cursor_draw_y s.saved_cursor_fg s.current_bg
        else s
      let cdx := s.term.cursor_x
      let cdy := s.term.cursor_y
      let sc := s.charbuf_back (cdx + cdy * 80)
      let s := { s with cursor_draw_x := cdx, cursor_draw_y := cdy, saved_cursor_char := sc }
      let s := set_colour (set_char s cdx cdy 32) cdx cdy 0 s.current_bg
      let s := set_colour (set_char s cdx cdy (styleGlyph s.current_cursor)) cdx cdy
        s.current_fg s.current_bg
      { s with cursor_drawn := true, buffer_dirty := true }
    else s
  safe_request_swap s

/-- Lines 735–769: escape-mode processing (`[` starts CSI; in CSI digits
accumulate, `;` commits a parameter, anything else commits and dispatches). -/
def hcEscape (s : Machine) (c : Nat) : Machine :=
  if c = 91 then
    { s with term := { s.term with ansi_mode := true }, ansi_params := [], ansi_buffer := [] }
  else if s.term.ansi_mode then
    if 48 ≤ c ∧ c ≤ 57 then
      if s.ansi_buffer.length < 15 then { s with ansi_buffer := s.ansi_buffer ++ [c] }
      else s
    else if c = 59 then
      { s with
        ansi_params :=
          if s.ansi_params.length < 4 then s.ansi_params ++ [atoiSat s.ansi_buffer % 256]
          else s.ansi_params
        ansi_buffer := [] }
    else
      let ps :=
        if 0 < s.ansi_buffer.length ∧ s.ansi_params.length < 4 then
          s.ansi_params ++ [atoiSat s.ansi_buffer % 256]
        else s.ansi_params
      let s1 := process_ansi_sequence { s with ansi_params := ps } ps c
      { s1 with term := { s1.term with escape_mode := false, ansi_mode := false } }
  else
    { s with term := { s.term with escape_mode := false } }

/-- Lines 771–794: foreground colour-pick mode. -/
def hcFgMenu (s : Machine) (c : Nat) : Machine :=
  if (48 ≤ c ∧ c ≤ 57) ∧ s.color_menu_buf.length < 2 then
    let buf := s.color_menu_buf ++ [c]
    let s := { s with color_menu_buf := buf }
    if buf.length = 2 then
      let color_num := (buf.getD 0 0 - 48) * 10 + (buf.getD 1 0 - 48)
      let s := if color_num < 64 then { s with current_fg := color_num } else s
      let s := restore_menu_region s
      { s with fg_color_menu_mode := false, color_menu_buf := [] }
    else s
  else if c = 8 ∧ 0 < s.color_menu_buf.length then
    { s with color_menu_buf := s.color_menu_buf.dropLast }
  else if c = 27 then
    let s := restore_menu_region s
    { s with fg_color_menu_mode := false, color_menu_buf := [] }
  else s

/-- Lines 795–818: background colour-pick mode (mirror of `hcFgMenu`). -/
def hcBgMenu (s : Machine) (c : Nat) : Machine :=
  if (48 ≤ c ∧ c ≤ 57) ∧ s.color_menu_buf.length < 2 then
    let buf := s.color_menu_buf ++ [c]
    let s := { s with color_menu_buf := buf }
    if buf.length = 2 then
      let color_num := (buf.getD 0 0 - 48) * 10 + (buf.getD 1 0 - 48)
      let s := if color_num < 64 then { s with current_bg := color_num } else s
      let s := restore_menu_region s
      { s with bg_color_menu_mode := false, color_menu_buf := [] }
    else s
  else if c = 8 ∧ 0 < s.color_menu_buf.length then
    { s with color_menu_buf := s.color_menu_buf.dropLast }
  else if c = 27 then
    let s := restore_menu_region s
    { s with bg_color_menu_mode := false, color_menu_buf := [] }
  else s

/-- Lines 820–835: cursor-style-pick mode (`1`–`6` select, anything else is
ignored with the mode still active). -/
def hcCursorMenu (s : Machine) (c : Nat) : Machine :=
  if 49 ≤ c ∧ c ≤ 54 then
    let style : CursorStyle :=
      if c = 49 then .solidBlock
      else if c = 50 then .underline
      else if c = 51 then .bar
      else if c = 52 then .appleI
      else if c = 53 then .shadedBlock
      else .solidArrow
    let s := { s with current_cursor := style, cursor_menu_mode := false }
    let s := restore_menu_region s
    { s with term := { s.term with cursor_visible := true }, cursor_blink_counter := 0 }
  else s

/-- Lines 837–853: theme-pick mode (`0`–`9` select a preset, anything else is
ignored with the mode still active). -/
def hcTheme (s : Machine) (c : Nat) : Machine :=
  if c = 48 then { s with current_fg := 12, current_bg := 0, theme_select_mode := false }
  else if c = 49 then { s with current_fg := 60, current_bg := 0, theme_select_mode := false }
  else if c = 50 then { s with current_fg := 63, current_bg := 3, theme_select_mode := false }
  else if c = 51 then { s with current_fg := 0, current_bg := 63, theme_select_mode := false }
  else if c = 52 then { s with current_fg := 11, current_bg := 3, theme_select_mode := false }
  else if c = 53 then { s with current_fg := 60, current_bg := 3, theme_select_mode := false }
  else if c = 54 then { s with current_fg := 51, current_bg := 0, theme_select_mode := false }
  else if c = 55 then { s with current_fg := 42, current_bg := 0, theme_select_mode := false }
  else if c = 56 then { s with current_fg := 15, current_bg := 0, theme_select_mode := false }
  else if c = 57 then { s with current_fg := 48, current_bg := 21, theme_select_mode := false }
  else s

def fgMenuTitle : List Nat := strCodes "Foreground Color Menu"

def bgMenuTitle : List Nat := strCodes "Background Color Menu"

def colorMenuPrompt : List Nat := strCodes "Enter color code (00-63):"

/-- Lines 855–910 and the shared epilogue: the `switch (c)` a byte reaches in
normal mode.  All of its cases `break` into the cursor redraw (`endOfChar`). -/
def hcSwitch (s : Machine) (c : Nat) : Machine :=
  let s1 :=
    if c = 6 then
      draw_color_menu { s with fg_color_menu_mode := true, color_menu_buf := [] }
        fgMenuTitle colorMenuPrompt
    else if c = 2 then
      draw_color_menu { s with bg_color_menu_mode := true, color_menu_buf := [] }
        bgMenuTitle colorMenuPrompt
    else if c = 20 then { s with theme_select_mode := true }
    else if c = 14 then draw_cursor_menu { s with cursor_menu_mode := true }
    else if c = 27 then { s with term := { s.term with escape_mode := true } }
    else if c = 13 then
      let s := new_line s
      { s with term := { s.term with skip_next_lf := true, suppress_next_cr := true } }
    else if c = 10 then
      let s := new_line s
      { s with term := { s.term with skip_next_cr := true } }
    else if c = 8 then
      if 0 < s.term.cursor_x then
        let x := s.term.cursor_x - 1
        let s := { s with term := { s.term with cursor_x := x } }
        let s := set_colour (set_char s x s.term.cursor_y 32) x s.term.cursor_y
          s.current_fg s.current_bg
        { s with buffer_dirty := true }
      else s
    else
      let s := set_colour (set_char s s.term.cursor_x s.term.cursor_y c)
        s.term.cursor_x s.term.cursor_y s.current_fg s.current_bg
      let s := { s with term := { s.term with cursor_x := s.term.cursor_x + 1 },
                        buffer_dirty := true }
      if 80 ≤ s.term.cursor_x then new_line s else s
  endOfChar s1

/-- `handle_char`: one input byte through the terminal state machine. -/
def handle_char (s0 : Machine) (c : Nat) : Machine :=
  let s := clearDrawnCursor s0
  if s.term.suppress_next_cr ∧ c = 13 then setSuppress s false
  else
    let s := setSuppress s false
    if s.term.skip_next_lf ∧ c = 10 then setSkipLf s false
    else if s.term.skip_next_cr ∧ c = 13 then setSkipCr s false
    else
      let s := if s.term.skip_next_lf ∧ c ≠ 10 then setSkipLf s false else s
      let s := if s.term.skip_next_cr ∧ c ≠ 13 then setSkipCr s false else s
      if s.term.escape_mode then hcEscape s c
      else if s.fg_color_menu_mode then hcFgMenu s c
      else if s.bg_color_menu_mode then hcBgMenu s c
      else if s.cursor_menu_mode then hcCursorMenu s c
      else if s.theme_select_mode then hcTheme s c
      else hcSwitch s c

/-- Feed a byte sequence through `handle_char`. -/
def runBytes (s : Machine) (l : List Nat) : Machine := l.foldl handle_char s

/-- Lines 1114–1172: the main loop's counter-driven cursor blink.  The guard
checks only `cursor_menu_mode`; at the threshold (`CURSOR_BLINK_MS /
MAIN_LOOP_MIN_MS = 50`) the cursor is toggled: either the saved cell is
restored, or the cell under the cursor is saved (glyph, and foreground via
the plane walk) and the cursor glyph drawn. -/
def cursorBlinkTick (s : Machine) : Machine :=
  if s.term.cursor_visible ∧ s.cursor_menu_mode = false then
    let s := { s with cursor_blink_counter := s.cursor_blink_counter + 1 }
    if 50 ≤ s.cursor_blink_counter then
      let s := { s with cursor_blink_counter := 0 }
      let s :=
        if s.cursor_drawn then
          let s := set_colour (set_char s s.cursor_draw_x s.cursor_draw_y s.saved_cursor_char)
            s.cursor_draw_x s.cursor_draw_y s.saved_cursor_fg s.current_bg
          { s with cursor_drawn := false }
        else
          let cdx := s.term.cursor_x
          let cdy := s.term.cursor_y
          let idx := cdx + cdy * 80
          let sc := s.charbuf_back idx
          let bit := idx % 8 * 4
          let word := idx / 8
          let sfg := [2, 1, 0].foldl
            (fun a p => (a <<< 2) ||| ((s.colourbuf_back (word + p * 300) >>> bit) &&& 15 &&& 3)) 0
          let s := { s with cursor_draw_x := cdx, cursor_draw_y := cdy,
                            saved_cursor_char := sc, saved_cursor_fg := sfg }
          let s := set_colour (set_char s cdx cdy 32) cdx cdy 0 s.current_bg
          let s := set_colour (set_char s cdx cdy (styleGlyph s.current_cursor)) cdx cdy
            s.current_fg s.current_bg
          { s with cursor_drawn := true }
      safe_request_swap { s with buffer_dirty := true }
    else s
  else s

/-- Lines 1017–1027 of `core1_main`: per scan line, the renderer performs the
pending swap only at the frame boundary (`y == 0`, vertical blank); the rest
of the loop body encodes the front buffer for output and mutates nothing
modelled here. -/
def core1LineStep (s : Machine) (y : Nat) : Machine :=
  if y = 0 ∧ s.swap_pending then perform_swap s else s

/-- One iteration of the `process_uart_buffer` drain loop (lines 993–1006):
pop a byte, hand it to `handle_char` (which never touches the queue), then
clear the overflow flag if the check on the occupancy passes. -/
def consumeStep (m : Machine) (u : UartState) : Machine × UartState :=
  let c := u.buf u.tail
  let u := { u with tail := (u.tail + 1) % 512 }
  let m := handle_char m c
  let u := if u.overflow ∧ 128 < uartOcc u then { u with overflow := false } else u
  (m, u)

/-- The machine state before `main()` runs: static storage is
zero-initialised, with the initialisers `current_cursor = CURSOR_APPLE_I`,
`current_fg = 12`, `saved_cursor_char = ' '`, `scroll_settled = true`. -/
def machineBase : Machine :=
  { term := { cursor_x := 0, cursor_y := 0, cursor_visible := false, escape_mode := false,
              ansi_mode := false, skip_next_lf := false, skip_next_cr := false,
              suppress_next_cr := false }
    charbuf_back := fun _ => 0
    charbuf_front := fun _ => 0
    colourbuf_back := fun _ => 0
    colourbuf_front := fun _ => 0
    swap_pending := false
    swap_queued := false
    scroll_settled := true
    safe_to_scroll := false
    buffer_dirty := false
    cursor_drawn := false
    saved_cursor_x := -1
    saved_cursor_y := -1
    cursor_draw_x := 0
    cursor_draw_y := 0
    saved_cursor_char := 32
    saved_cursor_fg := 0
    cursor_blink_counter := 0
    ansi_params := []
    ansi_buffer := []
    current_fg := 12
    current_bg := 0
    current_cursor := .appleI
    theme_select_mode := false
    cursor_menu_mode := false
    bg_color_menu_mode := false
    fg_color_menu_mode := false
    color_menu_buf := []
    saved_chars := fun _ _ => 0
    saved_fg := fun _ _ => 0
    saved_bg := fun _ _ => 0
    menu_left := 0
    menu_top := 0
    nl_count := 0 }

/-- The machine state when `main()` enters its loop (lines 1089–1100): `term`
zeroed then `cursor_visible = true`, the draw/saved cursor coordinates set to
0, `clear_screen()` and a direct `perform_swap()`. -/
def initMachine : Machine :=
  perform_swap (clear_screen
    { machineBase with
      term := { machineBase.term with cursor_visible := true }
      cursor_draw_x := 0
      cursor_draw_y := 0
      saved_cursor_x := 0
      saved_cursor_y := 0 })

/-! ## Proof infrastructure

`PState` projects out the fields of `Machine` that the terminal state machine
branches on or that the claims talk about (parser state, modes, colours,
cursor, menu bookkeeping, the ghost line counter); the screen/cursor-drawing
fields are deliberately omitted so that buffer-writing operations are
`PState`-preserving. -/

structure PState where
  term : Term
  params : List Nat
  buffer : List Nat
  fgm : Bool
  bgm : Bool
  cm : Bool
  tm : Bool
  cbuf : List Nat
  cfg : Nat
  cbg : Nat
  nl : Nat
  ml : Nat
  mt : Nat
  sch : Nat → Nat → Nat
  sfgA : Nat → Nat → Nat
  sbgA : Nat → Nat → Nat

def pstate (s : Machine) : PState :=
  { term := s.term, params := s.ansi_params, buffer := s.ansi_buffer,
    fgm := s.fg_color_menu_mode, bgm := s.bg_color_menu_mode,
    cm := s.cursor_menu_mode, tm := s.theme_select_mode,
    cbuf := s.color_menu_buf, cfg := s.current_fg, cbg := s.current_bg,
    nl := s.nl_count, ml := s.menu_left, mt := s.menu_top,
    sch := s.saved_chars, sfgA := s.saved_fg, sbgA := s.saved_bg }

lemma foldl_pres {α β : Type} (proj : Machine → β) (f : Machine → α → Machine)
    (h : ∀ s a, proj (f s a) = proj s) :
    ∀ (l : List α) (s : Machine), proj (List.foldl f s l) = proj s := by
  intro l
  induction l with
  | nil => intro s; rfl
  | cons a l ih => intro s; rw [List.foldl_cons, ih, h]

@[simp] lemma pstate_set_char (s : Machine) (x y c : Nat) :
    pstate (set_char s x y c) = pstate s := by
  unfold set_char; split <;> rfl

@[simp] lemma pstate_set_colour (s : Machine) (x y fg bg : Nat) :
    pstate (set_colour s x y fg bg) = pstate s := rfl

@[simp] lemma pstate_request_swap (s : Machine) : pstate (request_swap s) = pstate s := by
  unfold request_swap; split <;> rfl

@[simp] lemma pstate_perform_swap (s : Machine) : pstate (perform_swap s) = pstate s := rfl

@[simp] lemma pstate_safe_request_swap (s : Machine) :
    pstate (safe_request_swap s) = pstate s := by
  unfold safe_request_swap
  split
  · have h0 : pstate { perform_swap (request_swap s) with buffer_dirty := false } =
        pstate (perform_swap (request_swap s)) := rfl
    rw [h0, pstate_perform_swap, pstate_request_swap]
  · rfl

lemma pstate_upd_drawn (X : Machine) (a b : Bool) :
    pstate { X with cursor_drawn := a, buffer_dirty := b } = pstate X := rfl

lemma pstate_upd_draw_pos (X : Machine) (a b c : Nat) :
    pstate { X with cursor_draw_x := a, cursor_draw_y := b, saved_cursor_char := c } =
      pstate X := rfl

@[simp] lemma pstate_clearDrawnCursor (s : Machine) :
    pstate (clearDrawnCursor s) = pstate s := by
  unfold clearDrawnCursor
  split
  · rw [pstate_upd_drawn, pstate_set_colour, pstate_set_char]
  · rfl

@[simp] lemma pstate_endOfChar (s : Machine) : pstate (endOfChar s) = pstate s := by
  unfold endOfChar
  rw [pstate_safe_request_swap]
  split
  · rw [pstate_upd_drawn, pstate_set_colour, pstate_set_char, pstate_set_colour,
      pstate_set_char, pstate_upd_draw_pos]
    split
    · rw [pstate_set_colour, pstate_set_char]
    · rfl
  · rfl

lemma pstate_foldl {α : Type} (f : Machine → α → Machine) (l : List α) (s : Machine)
    (h : ∀ s a, pstate (f s a) = pstate s) : pstate (List.foldl f s l) = pstate s :=
  foldl_pres pstate f h l s

@[simp] lemma pstate_scroll_up (s : Machine) : pstate (scroll_up s) = pstate s := by
  unfold scroll_up
  rw [pstate_safe_request_swap]
  rw [show ∀ X : Machine, pstate { X with buffer_dirty := true } = pstate X from fun _ => rfl]
  refine (pstate_foldl _ _ _
    (fun s x => pstate_set_colour s x 29 s.current_fg s.current_bg)).trans ?_
  refine (pstate_foldl _ _ _ ?_).trans ?_
  · intro s x
    dsimp only
    exact pstate_foldl _ _ _ (fun s p => rfl)
  · rw [show ∀ (X : Machine) (g : Nat → Nat),
        pstate { X with colourbuf_back := g } = pstate X from fun _ _ => rfl]
    refine (pstate_foldl _ _ _ ?_).trans rfl
    intro s x
    rfl

@[simp] lemma pstate_restoreCell (s : Machine) (row col : Nat) :
    pstate (restoreCell s row col) = pstate s := by
  unfold restoreCell
  dsimp only
  split
  · rw [pstate_set_colour, pstate_set_char]
  · rfl

@[simp] lemma pstate_restore_menu_region (s : Machine) :
    pstate (restore_menu_region s) = pstate s := by
  unfold restore_menu_region
  rw [pstate_safe_request_swap]
  rw [show ∀ X : Machine, pstate { X with buffer_dirty := true } = pstate X from fun _ => rfl]
  exact pstate_foldl _ _ _
    (fun s row => pstate_foldl _ _ _ (fun s col => pstate_restoreCell s row col))

/-! Field projections of `clearDrawnCursor` (it touches only the screen
buffers and the cursor-drawn bookkeeping). -/

lemma clearDrawn_term (s : Machine) : (clearDrawnCursor s).term = s.term :=
  congrArg PState.term (pstate_clearDrawnCursor s)

lemma clearDrawn_fgm (s : Machine) :
    (clearDrawnCursor s).fg_color_menu_mode = s.fg_color_menu_mode :=
  congrArg PState.fgm (pstate_clearDrawnCursor s)

lemma clearDrawn_bgm (s : Machine) :
    (clearDrawnCursor s).bg_color_menu_mode = s.bg_color_menu_mode :=
  congrArg PState.bgm (pstate_clearDrawnCursor s)

lemma clearDrawn_cm (s : Machine) :
    (clearDrawnCursor s).cursor_menu_mode = s.cursor_menu_mode :=
  congrArg PState.cm (pstate_clearDrawnCursor s)

lemma clearDrawn_tm (s : Machine) :
    (clearDrawnCursor s).theme_select_mode = s.theme_select_mode :=
  congrArg PState.tm (pstate_clearDrawnCursor s)

lemma clearDrawn_params (s : Machine) : (clearDrawnCursor s).ansi_params = s.ansi_params :=
  congrArg PState.params (pstate_clearDrawnCursor s)

lemma clearDrawn_buffer (s : Machine) : (clearDrawnCursor s).ansi_buffer = s.ansi_buffer :=
  congrArg PState.buffer (pstate_clearDrawnCursor s)

lemma clearDrawn_cbuf (s : Machine) : (clearDrawnCursor s).color_menu_buf = s.color_menu_buf :=
  congrArg PState.cbuf (pstate_clearDrawnCursor s)

lemma clearDrawn_cfg (s : Machine) : (clearDrawnCursor s).current_fg = s.current_fg :=
  congrArg PState.cfg (pstate_clearDrawnCursor s)

lemma clearDrawn_cbg (s : Machine) : (clearDrawnCursor s).current_bg = s.current_bg :=
  congrArg PState.cbg (pstate_clearDrawnCursor s)

lemma clearDrawn_nl (s : Machine) : (clearDrawnCursor s).nl_count = s.nl_count :=
  congrArg PState.nl (pstate_clearDrawnCursor s)

lemma Term.eta_suppress (t : Term) (h : t.suppress_next_cr = false) :
    ({ t with suppress_next_cr := false } : Term) = t := by
  cases t
  simp_all

lemma setSuppress_eta (s : Machine) (h : s.term.suppress_next_cr = false) :
    setSuppress s false = s := by
  unfold setSuppress
  rw [Term.eta_suppress s.term h]

/-- Routing: with no suppression flags armed, a byte falls straight through
the line-ending checks to the mode dispatch. -/
lemma handle_char_route (s : Machine) (c : Nat)
    (h1 : s.term.suppress_next_cr = false) (h2 : s.term.skip_next_lf = false)
    (h3 : s.term.skip_next_cr = false) :
    handle_char s c =
      (if (clearDrawnCursor s).term.escape_mode then hcEscape (clearDrawnCursor s) c
       else if (clearDrawnCursor s).fg_color_menu_mode then hcFgMenu (clearDrawnCursor s) c
       else if (clearDrawnCursor s).bg_color_menu_mode then hcBgMenu (clearDrawnCursor s) c
       else if (clearDrawnCursor s).cursor_menu_mode then hcCursorMenu (clearDrawnCursor s) c
       else if (clearDrawnCursor s).theme_select_mode then hcTheme (clearDrawnCursor s) c
       else hcSwitch (clearDrawnCursor s) c) := by
  unfold handle_char
  simp only [clearDrawn_term, h1, h2, h3, setSuppress_eta, Bool.false_eq_true, false_and,
    if_false, ite_false, ne_eq]

/-! Record-update commutation with `pstate` (all definitional). -/

lemma pstate_upd_term (Y : Machine) (T : Term) :
    pstate { Y with term := T } = { pstate Y with term := T } := rfl

lemma pstate_upd_term_pb (Y : Machine) (T : Term) (P B : List Nat) :
    pstate { Y with term := T, ansi_params := P, ansi_buffer := B } =
      { pstate Y with term := T, params := P, buffer := B } := rfl

lemma pstate_upd_buffer (Y : Machine) (B : List Nat) :
    pstate { Y with ansi_buffer := B } = { pstate Y with buffer := B } := rfl

lemma pstate_upd_pb (Y : Machine) (P B : List Nat) :
    pstate { Y with ansi_params := P, ansi_buffer := B } =
      { pstate Y with params := P, buffer := B } := rfl

lemma pstate_upd_dirty (Y : Machine) (b : Bool) :
    pstate { Y with buffer_dirty := b } = pstate Y := rfl

lemma pstate_upd_nl_x (Y : Machine) (n : Nat) (T : Term) :
    pstate { Y with nl_count := n, term := T } = { pstate Y with nl := n, term := T } := rfl

/-- `new_line` at the `pstate` level. -/
lemma pstate_new_line (s : Machine) :
    pstate (new_line s) =
      { pstate s with
        nl := s.nl_count + 1
        term := { s.term with
          cursor_x := 0
          cursor_y := if 30 ≤ s.term.cursor_y + 1 then 29 else s.term.cursor_y + 1 } } := by
  unfold new_line
  rw [pstate_safe_request_swap, pstate_upd_dirty]
  dsimp only
  split
  · rw [pstate_scroll_up, pstate_upd_term, pstate_upd_nl_x]
  · rw [pstate_upd_term, pstate_upd_nl_x]

/-- Normal-mode ESC: enter escape mode (through `hcSwitch` and the redraw
epilogue, which leave the parser view otherwise unchanged). -/
lemma hc_normal_esc (s : Machine)
    (h1 : s.term.suppress_next_cr = false) (h2 : s.term.skip_next_lf = false)
    (h3 : s.term.skip_next_cr = false) (he : s.term.escape_mode = false)
    (hf : s.fg_color_menu_mode = false) (hb : s.bg_color_menu_mode = false)
    (hm : s.cursor_menu_mode = false) (ht : s.theme_select_mode = false) :
    pstate (handle_char s 27) =
      { pstate s with term := { s.term with escape_mode := true } } := by
  rw [handle_char_route s 27 h1 h2 h3]
  simp only [clearDrawn_term, clearDrawn_fgm, clearDrawn_bgm, clearDrawn_cm, clearDrawn_tm,
    he, hf, hb, hm, ht, Bool.false_eq_true, if_false, ite_false]
  unfold hcSwitch
  norm_num
  rw [pstate_upd_term, pstate_clearDrawnCursor, clearDrawn_term]

/-- Escape-mode `[`: enter CSI mode and reset the parameter accumulators. -/
lemma hc_esc_bracket (s : Machine)
    (h1 : s.term.suppress_next_cr = false) (h2 : s.term.skip_next_lf = false)
    (h3 : s.term.skip_next_cr = false) (he : s.term.escape_mode = true) :
    pstate (handle_char s 91) =
      { pstate s with term := { s.term with ansi_mode := true }, params := [], buffer := [] } := by
  rw [handle_char_route s 91 h1 h2 h3]
  simp only [clearDrawn_term, he, if_true, ite_true]
  unfold hcEscape
  norm_num
  rw [pstate_upd_term_pb, pstate_clearDrawnCursor, clearDrawn_term, he]

/-- CSI digit: append to the numeral accumulator (length-limited to 15). -/
lemma hc_csi_digit (s : Machine) (c : Nat)
    (h1 : s.term.suppress_next_cr = false) (h2 : s.term.skip_next_lf = false)
    (h3 : s.term.skip_next_cr = false) (he : s.term.escape_mode = true)
    (ha : s.term.ansi_mode = true) (hd : 48 ≤ c ∧ c ≤ 57)
    (hlen : s.ansi_buffer.length < 15) :
    pstate (handle_char s c) = { pstate s with buffer := s.ansi_buffer ++ [c] } := by
  rw [handle_char_route s c h1 h2 h3]
  simp only [clearDrawn_term, he, if_true, ite_true]
  unfold hcEscape
  rw [if_neg (by omega), if_pos (by rw [clearDrawn_term]; exact ha), if_pos hd,
    if_pos (by rw [clearDrawn_buffer]; exact hlen)]
  rw [pstate_upd_buffer, pstate_clearDrawnCursor, clearDrawn_buffer]

/-- CSI `;`: commit the accumulator as a parameter (dropped beyond 4). -/
lemma hc_csi_semi (s : Machine)
    (h1 : s.term.suppress_next_cr = false) (h2 : s.term.skip_next_lf = false)
    (h3 : s.term.skip_next_cr = false) (he : s.term.escape_mode = true)
    (ha : s.term.ansi_mode = true) :
    pstate (handle_char s 59) =
      { pstate s with
        params := if s.ansi_params.length < 4 then
            s.ansi_params ++ [atoiSat s.ansi_buffer % 256] else s.ansi_params
        buffer := [] } := by
  rw [handle_char_route s 59 h1 h2 h3]
  simp only [clearDrawn_term, he, if_true, ite_true]
  unfold hcEscape
  rw [if_neg (by omega), if_pos (by rw [clearDrawn_term]; exact ha), if_neg (by omega),
    if_pos rfl]
  rw [pstate_upd_pb, pstate_clearDrawnCursor, clearDrawn_params, clearDrawn_buffer]

lemma pstate_upd_params (Y : Machine) (P : List Nat) :
    pstate { Y with ansi_params := P } = { pstate Y with params := P } := rfl

/-- CSI final byte `H` with no committed parameters and an empty accumulator
(the bare `ESC [ H`): the sequence is dispatched, escape state cleared, and —
since neither `count >= 1` nor `count >= 2` holds — the cursor is untouched. -/
lemma hc_csi_H_none (s : Machine)
    (h1 : s.term.suppress_next_cr = false) (h2 : s.term.skip_next_lf = false)
    (h3 : s.term.skip_next_cr = false) (he : s.term.escape_mode = true)
    (ha : s.term.ansi_mode = true) (hp : s.ansi_params = []) (hb : s.ansi_buffer = []) :
    pstate (handle_char s 72) =
      { pstate s with
        params := ([] : List Nat)
        term := { s.term with escape_mode := false, ansi_mode := false } } := by
  rw [handle_char_route s 72 h1 h2 h3]
  simp only [clearDrawn_term, he, if_true, ite_true]
  unfold hcEscape
  rw [if_neg (by omega), if_pos (by rw [clearDrawn_term]; exact ha), if_neg (by omega),
    if_neg (by omega)]
  dsimp only
  simp only [clearDrawn_buffer, clearDrawn_params, hp, hb, List.length_nil]
  norm_num
  unfold process_ansi_sequence
  norm_num
  rw [pstate_upd_term_pb, pstate_clearDrawnCursor, clearDrawn_term]
  simp [pstate, hb]

/-- CSI final byte `H` with one committed parameter `p1` and a pending
accumulator: the accumulator commits as the second parameter and the cursor
moves to the 0-based position (0 parameters clamp to 0). -/
lemma hc_csi_H_pair (s : Machine) (p1 : Nat) (ds : List Nat)
    (h1 : s.term.suppress_next_cr = false) (h2 : s.term.skip_next_lf = false)
    (h3 : s.term.skip_next_cr = false) (he : s.term.escape_mode = true)
    (ha : s.term.ansi_mode = true) (hp : s.ansi_params = [p1]) (hb : s.ansi_buffer = ds)
    (hne : ds ≠ []) :
    pstate (handle_char s 72) =
      { pstate s with
        params := [p1, atoiSat ds % 256]
        term := { s.term with
          escape_mode := false
          ansi_mode := false
          cursor_y := if 0 < p1 then p1 - 1 else 0
          cursor_x := if 0 < atoiSat ds % 256 then atoiSat ds % 256 - 1 else 0 } } := by
  rw [handle_char_route s 72 h1 h2 h3]
  simp only [clearDrawn_term, he, if_true, ite_true]
  unfold hcEscape
  rw [if_neg (by omega), if_pos (by rw [clearDrawn_term]; exact ha), if_neg (by omega),
    if_neg (by omega)]
  dsimp only
  simp only [clearDrawn_buffer, clearDrawn_params, hp, hb]
  rw [if_pos ⟨List.length_pos.mpr hne, by norm_num⟩]
  unfold process_ansi_sequence
  norm_num
  rw [pstate_upd_term_pb, pstate_clearDrawnCursor, clearDrawn_term]
  simp [pstate, hb]

lemma new_line_term (s : Machine) :
    (new_line s).term =
      { s.term with
        cursor_x := 0
        cursor_y := if 30 ≤ s.term.cursor_y + 1 then 29 else s.term.cursor_y + 1 } :=
  congrArg PState.term (pstate_new_line s)

/-- Normal-mode carriage return: `new_line()` plus arming both the skip-LF
and the suppress-CR flags. -/
lemma hc_cr (s : Machine)
    (h1 : s.term.suppress_next_cr = false) (h2 : s.term.skip_next_lf = false)
    (h3 : s.term.skip_next_cr = false) (he : s.term.escape_mode = false)
    (hf : s.fg_color_menu_mode = false) (hb : s.bg_color_menu_mode = false)
    (hm : s.cursor_menu_mode = false) (ht : s.theme_select_mode = false) :
    pstate (handle_char s 13) =
      { pstate s with
        nl := s.nl_count + 1
        term := { s.term with
          cursor_x := 0
          cursor_y := if 30 ≤ s.term.cursor_y + 1 then 29 else s.term.cursor_y + 1
          skip_next_lf := true
          suppress_next_cr := true } } := by
  rw [handle_char_route s 13 h1 h2 h3]
  simp only [clearDrawn_term, clearDrawn_fgm, clearDrawn_bgm, clearDrawn_cm, clearDrawn_tm,
    he, hf, hb, hm, ht, Bool.false_eq_true, if_false, ite_false]
  unfold hcSwitch
  norm_num
  rw [pstate_upd_term, pstate_new_line, new_line_term, clearDrawn_term, clearDrawn_nl,
    pstate_clearDrawnCursor]
  simp [he]

/-- Normal-mode line feed: `new_line()` plus arming the skip-CR flag. -/
lemma hc_lf (s : Machine)
    (h1 : s.term.suppress_next_cr = false) (h2 : s.term.skip_next_lf = false)
    (h3 : s.term.skip_next_cr = false) (he : s.term.escape_mode = false)
    (hf : s.fg_color_menu_mode = false) (hb : s.bg_color_menu_mode = false)
    (hm : s.cursor_menu_mode = false) (ht : s.theme_select_mode = false) :
    pstate (handle_char s 10) =
      { pstate s with
        nl := s.nl_count + 1
        term := { s.term with
          cursor_x := 0
          cursor_y := if 30 ≤ s.term.cursor_y + 1 then 29 else s.term.cursor_y + 1
          skip_next_cr := true } } := by
  rw [handle_char_route s 10 h1 h2 h3]
  simp only [clearDrawn_term, clearDrawn_fgm, clearDrawn_bgm, clearDrawn_cm, clearDrawn_tm,
    he, hf, hb, hm, ht, Bool.false_eq_true, if_false, ite_false]
  unfold hcSwitch
  norm_num
  rw [pstate_upd_term, pstate_new_line, new_line_term, clearDrawn_term, clearDrawn_nl,
    pstate_clearDrawnCursor]
  simp [he]

/-- A carriage return arriving while `suppress_next_cr` is armed is consumed:
only the flag is cleared. -/
lemma hc_suppress_cr (s : Machine) (hsup : s.term.suppress_next_cr = true) :
    pstate (handle_char s 13) =
      { pstate s with term := { s.term with suppress_next_cr := false } } := by
  unfold handle_char
  rw [if_pos ⟨by rw [clearDrawn_term]; exact hsup, rfl⟩]
  unfold setSuppress
  rw [pstate_upd_term, pstate_clearDrawnCursor, clearDrawn_term]

/-- A line feed arriving while `skip_next_lf` is armed (and the CR
suppression is not) is consumed: only the flag is cleared, after the
unconditional `suppress_next_cr` reset. -/
lemma hc_skip_lf (s : Machine) (hsup : s.term.suppress_next_cr = false)
    (hsl : s.term.skip_next_lf = true) :
    pstate (handle_char s 10) =
      { pstate s with term := { s.term with skip_next_lf := false } } := by
  unfold handle_char
  rw [if_neg (by norm_num)]
  rw [setSuppress_eta _ (by rw [clearDrawn_term]; exact hsup)]
  rw [if_pos ⟨by rw [clearDrawn_term]; exact hsl, rfl⟩]
  unfold setSkipLf
  rw [pstate_upd_term, pstate_clearDrawnCursor, clearDrawn_term]

lemma pstate_upd_cbuf (Y : Machine) (L : List Nat) :
    pstate { Y with color_menu_buf := L } = { pstate Y with cbuf := L } := rfl

lemma pstate_upd_fgm_cbuf (Y : Machine) (b : Bool) (L : List Nat) :
    pstate { Y with fg_color_menu_mode := b, color_menu_buf := L } =
      { pstate Y with fgm := b, cbuf := L } := rfl

lemma pstate_upd_bgm_cbuf (Y : Machine) (b : Bool) (L : List Nat) :
    pstate { Y with bg_color_menu_mode := b, color_menu_buf := L } =
      { pstate Y with bgm := b, cbuf := L } := rfl

lemma pstate_upd_cfg (Y : Machine) (v : Nat) :
    pstate { Y with current_fg := v } = { pstate Y with cfg := v } := rfl

lemma pstate_upd_cfg_cbuf (Y : Machine) (v : Nat) (L : List Nat) :
    pstate { Y with current_fg := v, color_menu_buf := L } =
      { pstate Y with cfg := v, cbuf := L } := rfl

lemma pstate_upd_cbg_cbuf (Y : Machine) (v : Nat) (L : List Nat) :
    pstate { Y with current_bg := v, color_menu_buf := L } =
      { pstate Y with cbg := v, cbuf := L } := rfl

lemma pstate_upd_cbg (Y : Machine) (v : Nat) :
    pstate { Y with current_bg := v } = { pstate Y with cbg := v } := rfl

/-- First digit in the foreground colour-pick mode: it is only accumulated. -/
lemma hc_fg_digit1 (s : Machine) (c : Nat)
    (h1 : s.term.suppress_next_cr = false) (h2 : s.term.skip_next_lf = false)
    (h3 : s.term.skip_next_cr = false) (he : s.term.escape_mode = false)
    (hfg : s.fg_color_menu_mode = true) (hd : 48 ≤ c ∧ c ≤ 57)
    (hbuf : s.color_menu_buf = []) :
    pstate (handle_char s c) = { pstate s with cbuf := [c] } := by
  rw [handle_char_route s c h1 h2 h3]
  simp only [clearDrawn_term, clearDrawn_fgm, he, hfg, Bool.false_eq_true, if_false,
    ite_false, if_true, ite_true]
  unfold hcFgMenu
  rw [if_pos ⟨hd, by rw [clearDrawn_cbuf, hbuf]; norm_num⟩]
  dsimp only
  rw [if_neg (by rw [clearDrawn_cbuf, hbuf]; norm_num)]
  rw [pstate_upd_cbuf, pstate_clearDrawnCursor, clearDrawn_cbuf, hbuf]
  rfl

/-- Second digit in the foreground colour-pick mode: the two-digit code is
applied when below 64 and the mode exits (restoring the region) in all
cases. -/
lemma hc_fg_digit2 (s : Machine) (d1 c : Nat)
    (h1 : s.term.suppress_next_cr = false) (h2 : s.term.skip_next_lf = false)
    (h3 : s.term.skip_next_cr = false) (he : s.term.escape_mode = false)
    (hfg : s.fg_color_menu_mode = true) (hd : 48 ≤ c ∧ c ≤ 57)
    (hbuf : s.color_menu_buf = [d1]) :
    pstate (handle_char s c) =
      { pstate s with
        fgm := false
        cbuf := ([] : List Nat)
        cfg := if (d1 - 48) * 10 + (c - 48) < 64 then (d1 - 48) * 10 + (c - 48)
          else s.current_fg } := by
  rw [handle_char_route s c h1 h2 h3]
  simp only [clearDrawn_term, clearDrawn_fgm, he, hfg, Bool.false_eq_true, if_false,
    ite_false, if_true, ite_true]
  unfold hcFgMenu
  rw [if_pos ⟨hd, by rw [clearDrawn_cbuf, hbuf]; norm_num⟩]
  dsimp only
  rw [if_pos (by rw [clearDrawn_cbuf, hbuf]; norm_num)]
  simp only [clearDrawn_cbuf, hbuf]
  rw [pstate_upd_fgm_cbuf, pstate_restore_menu_region]
  by_cases hv : (d1 - 48) * 10 + (c - 48) < 64
  · rw [if_pos (by simpa using hv), if_pos hv]
    rw [pstate_upd_cfg_cbuf, pstate_clearDrawnCursor]
    simp
  · rw [if_neg (by simpa using hv), if_neg hv]
    rw [pstate_upd_cbuf, pstate_clearDrawnCursor]
    simp [pstate]

/-- ESC in the foreground colour-pick mode: cancel without applying a
colour. -/
lemma hc_fg_esc (s : Machine)
    (h1 : s.term.suppress_next_cr = false) (h2 : s.term.skip_next_lf = false)
    (h3 : s.term.skip_next_cr = false) (he : s.term.escape_mode = false)
    (hfg : s.fg_color_menu_mode = true) :
    pstate (handle_char s 27) =
      { pstate s with fgm := false, cbuf := ([] : List Nat) } := by
  rw [handle_char_route s 27 h1 h2 h3]
  simp only [clearDrawn_term, clearDrawn_fgm, he, hfg, Bool.false_eq_true, if_false,
    ite_false, if_true, ite_true]
  unfold hcFgMenu
  rw [if_neg (by norm_num), if_neg (by norm_num), if_pos rfl]
  rw [pstate_upd_fgm_cbuf, pstate_restore_menu_region, pstate_clearDrawnCursor]

/-- First digit in the background colour-pick mode. -/
lemma hc_bg_digit1 (s : Machine) (c : Nat)
    (h1 : s.term.suppress_next_cr = false) (h2 : s.term.skip_next_lf = false)
    (h3 : s.term.skip_next_cr = false) (he : s.term.escape_mode = false)
    (hfg : s.fg_color_menu_mode = false) (hbg : s.bg_color_menu_mode = true)
    (hd : 48 ≤ c ∧ c ≤ 57) (hbuf : s.color_menu_buf = []) :
    pstate (handle_char s c) = { pstate s with cbuf := [c] } := by
  rw [handle_char_route s c h1 h2 h3]
  simp only [clearDrawn_term, clearDrawn_fgm, clearDrawn_bgm, he, hfg, hbg,
    Bool.false_eq_true, if_false, ite_false, if_true, ite_true]
  unfold hcBgMenu
  rw [if_pos ⟨hd, by rw [clearDrawn_cbuf, hbuf]; norm_num⟩]
  dsimp only
  rw [if_neg (by rw [clearDrawn_cbuf, hbuf]; norm_num)]
  rw [pstate_upd_cbuf, pstate_clearDrawnCursor, clearDrawn_cbuf, hbuf]
  rfl

/-- Second digit in the background colour-pick mode. -/
lemma hc_bg_digit2 (s : Machine) (d1 c : Nat)
    (h1 : s.term.suppress_next_cr = false) (h2 : s.term.skip_next_lf = false)
    (h3 : s.term.skip_next_cr = false) (he : s.term.escape_mode = false)
    (hfg : s.fg_color_menu_mode = false) (hbg : s.bg_color_menu_mode = true)
    (hd : 48 ≤ c ∧ c ≤ 57) (hbuf : s.color_menu_buf = [d1]) :
    pstate (handle_char s c) =
      { pstate s with
        bgm := false
        cbuf := ([] : List Nat)
        cbg := if (d1 - 48) * 10 + (c - 48) < 64 then (d1 - 48) * 10 + (c - 48)
          else s.current_bg } := by
  rw [handle_char_route s c h1 h2 h3]
  simp only [clearDrawn_term, clearDrawn_fgm, clearDrawn_bgm, he, hfg, hbg,
    Bool.false_eq_true, if_false, ite_false, if_true, ite_true]
  unfold hcBgMenu
  rw [if_pos ⟨hd, by rw [clearDrawn_cbuf, hbuf]; norm_num⟩]
  dsimp only
  rw [if_pos (by rw [clearDrawn_cbuf, hbuf]; norm_num)]
  simp only [clearDrawn_cbuf, hbuf]
  rw [pstate_upd_bgm_cbuf, pstate_restore_menu_region]
  by_cases hv : (d1 - 48) * 10 + (c - 48) < 64
  · rw [if_pos (by simpa using hv), if_pos hv]
    rw [pstate_upd_cbg_cbuf, pstate_clearDrawnCursor]
    simp
  · rw [if_neg (by simpa using hv), if_neg hv]
    rw [pstate_upd_cbuf, pstate_clearDrawnCursor]
    simp [pstate]

/-- ESC in the background colour-pick mode: cancel without applying. -/
lemma hc_bg_esc (s : Machine)
    (h1 : s.term.suppress_next_cr = false) (h2 : s.term.skip_next_lf = false)
    (h3 : s.term.skip_next_cr = false) (he : s.term.escape_mode = false)
    (hfg : s.fg_color_menu_mode = false) (hbg : s.bg_color_menu_mode = true) :
    pstate (handle_char s 27) =
      { pstate s with bgm := false, cbuf := ([] : List Nat) } := by
  rw [handle_char_route s 27 h1 h2 h3]
  simp only [clearDrawn_term, clearDrawn_fgm, clearDrawn_bgm, he, hfg, hbg,
    Bool.false_eq_true, if_false, ite_false, if_true, ite_true]
  unfold hcBgMenu
  rw [if_neg (by norm_num), if_neg (by norm_num), if_pos rfl]
  rw [pstate_upd_bgm_cbuf, pstate_restore_menu_region, pstate_clearDrawnCursor]

/-! Reads of the back character buffer through the restore loop. -/

lemma set_char_read_hit (s : Machine) (x y v : Nat) (hx : x < 80) (hy : y < 30) :
    (set_char s x y v).charbuf_back (x + y * 80) = v := by
  unfold set_char
  rw [if_pos ⟨hx, hy⟩]
  exact updF_hit _ _ _

lemma set_char_read_miss (s : Machine) (x y v i : Nat) (h : i ≠ x + y * 80) :
    (set_char s x y v).charbuf_back i = s.charbuf_back i := by
  unfold set_char
  split
  · exact updF_miss _ _ _ _ h
  · rfl

lemma set_colour_charbuf (s : Machine) (x y a b : Nat) :
    (set_colour s x y a b).charbuf_back = s.charbuf_back := rfl

lemma request_swap_charbuf (s : Machine) :
    (request_swap s).charbuf_back = s.charbuf_back := by
  unfold request_swap
  split <;> rfl

lemma safe_swap_charbuf (s : Machine) :
    (safe_request_swap s).charbuf_back = s.charbuf_back := by
  unfold safe_request_swap
  split
  · show (perform_swap (request_swap s)).charbuf_back = _
    rw [show (perform_swap (request_swap s)).charbuf_back =
      (request_swap s).charbuf_back from rfl, request_swap_charbuf]
  · rfl

lemma restoreCell_ml (s : Machine) (row col : Nat) :
    (restoreCell s row col).menu_left = s.menu_left :=
  congrArg PState.ml (pstate_restoreCell s row col)

lemma restoreCell_mt (s : Machine) (row col : Nat) :
    (restoreCell s row col).menu_top = s.menu_top :=
  congrArg PState.mt (pstate_restoreCell s row col)

lemma restoreCell_sch (s : Machine) (row col : Nat) :
    (restoreCell s row col).saved_chars = s.saved_chars :=
  congrArg PState.sch (pstate_restoreCell s row col)

lemma restoreCell_read_hit (s : Machine) (row col : Nat)
    (hx : s.menu_left + col < 80) (hy : s.menu_top + row < 30) :
    (restoreCell s row col).charbuf_back (s.menu_left + col + (s.menu_top + row) * 80) =
      s.saved_chars row col := by
  unfold restoreCell
  dsimp only
  rw [if_pos ⟨hx, hy⟩, set_colour_charbuf]
  exact set_char_read_hit _ _ _ _ hx hy

lemma restoreCell_read_miss (s : Machine) (row col r c L T : Nat)
    (hL : s.menu_left = L) (hT : s.menu_top = T) (hx : L + c < 80) (hy : T + r < 30)
    (hne : row ≠ r ∨ col ≠ c) :
    (restoreCell s row col).charbuf_back (L + c + (T + r) * 80) =
      s.charbuf_back (L + c + (T + r) * 80) := by
  unfold restoreCell
  dsimp only
  split
  · next hin =>
    rw [set_colour_charbuf]
    refine set_char_read_miss _ _ _ _ _ ?_
    rw [hL, hT] at hin
    rcases hne with hne | hne <;> omega
  · rfl

lemma restore_cols_miss (row r c L T : Nat) (l : List Nat)
    (hne : row ≠ r ∨ ∀ x ∈ l, x ≠ c) (hx : L + c < 80) (hy : T + r < 30) :
    ∀ s : Machine, s.menu_left = L → s.menu_top = T →
      ((l.foldl (fun s col => restoreCell s row col) s)).charbuf_back
          (L + c + (T + r) * 80) = s.charbuf_back (L + c + (T + r) * 80) := by
  induction l with
  | nil => intro s _ _; rfl
  | cons a l ih =>
    intro s hL hT
    rw [List.foldl_cons]
    have hstep : (restoreCell s row a).charbuf_back (L + c + (T + r) * 80) =
        s.charbuf_back (L + c + (T + r) * 80) := by
      refine restoreCell_read_miss s row a r c L T hL hT hx hy ?_
      rcases hne with h | h
      · exact Or.inl h
      · exact Or.inr (h a (List.mem_cons_self a l))
    have hne2 : row ≠ r ∨ ∀ x ∈ l, x ≠ c := by
      rcases hne with h | h
      · exact Or.inl h
      · exact Or.inr (fun x hx2 => h x (List.mem_cons_of_mem a hx2))
    rw [ih hne2 _ (by rw [restoreCell_ml, hL]) (by rw [restoreCell_mt, hT]), hstep]

lemma restore_fold_fields (row : Nat) (l : List Nat) (s : Machine) :
    (l.foldl (fun s col => restoreCell s row col) s).menu_left = s.menu_left ∧
      (l.foldl (fun s col => restoreCell s row col) s).menu_top = s.menu_top ∧
      (l.foldl (fun s col => restoreCell s row col) s).saved_chars = s.saved_chars := by
  have h := foldl_pres pstate (fun s col => restoreCell s row col)
    (fun s col => pstate_restoreCell s row col) l s
  exact ⟨congrArg PState.ml h, congrArg PState.mt h, congrArg PState.sch h⟩

lemma restore_cols_hit (r c L T : Nat) (SC : Nat → Nat → Nat) (hc : c < 34)
    (hx : L + c < 80) (hy : T + r < 30) (s : Machine)
    (hL : s.menu_left = L) (hT : s.menu_top = T) (hS : s.saved_chars = SC) :
    ((List.range 34).foldl (fun s col => restoreCell s r col) s).charbuf_back
        (L + c + (T + r) * 80) = SC r c := by
  have hsplit : List.range 34 = (List.range c ++ [c]) ++ List.range' (c + 1) (33 - c) := by
    rw [← List.range_succ, List.range_eq_range', List.range_eq_range']
    have := List.range'_append 0 (c + 1) (33 - c) 1
    simp at this
    rw [this]
    congr 1
    omega
  rw [hsplit, List.foldl_append, List.foldl_append]
  simp only [List.foldl_cons, List.foldl_nil]
  obtain ⟨hml, hmt, hsc⟩ := restore_fold_fields r (List.range c) s
  have hml1 : (restoreCell (List.foldl (fun s col => restoreCell s r col) s (List.range c)) r
      c).menu_left = L := by rw [restoreCell_ml, hml, hL]
  have hmt1 : (restoreCell (List.foldl (fun s col => restoreCell s r col) s (List.range c)) r
      c).menu_top = T := by rw [restoreCell_mt, hmt, hT]
  rw [restore_cols_miss r r c L T (List.range' (c + 1) (33 - c))
    (Or.inr (fun x hmem => by
      have := List.mem_range'_1.mp hmem
      omega)) hx hy _ hml1 hmt1]
  show (restoreCell _ r c).charbuf_back _ = _
  have hhit := restoreCell_read_hit (List.foldl (fun s col => restoreCell s r col) s
    (List.range c)) r c (by rw [hml, hL]; exact hx) (by rw [hmt, hT]; exact hy)
  rw [hml, hmt, hL, hT] at hhit
  rw [hhit, hsc, hS]

lemma restore_rows_fields (l : List Nat) (s : Machine) :
    ((l.foldl (fun s row => (List.range 34).foldl (fun s col => restoreCell s row col) s)
        s).menu_left = s.menu_left ∧
      (l.foldl (fun s row => (List.range 34).foldl (fun s col => restoreCell s row col) s)
        s).menu_top = s.menu_top) ∧
      (l.foldl (fun s row => (List.range 34).foldl (fun s col => restoreCell s row col) s)
        s).saved_chars = s.saved_chars := by
  have h := foldl_pres pstate
    (fun s row => (List.range 34).foldl (fun s col => restoreCell s row col) s)
    (fun s row => pstate_foldl _ _ _ (fun s col => pstate_restoreCell s row col)) l s
  exact ⟨⟨congrArg PState.ml h, congrArg PState.mt h⟩, congrArg PState.sch h⟩

lemma restore_rows_read (r c L T : Nat) (SC : Nat → Nat → Nat) (hr : r < 12) (hc : c < 34)
    (hx : L + c < 80) (hy : T + r < 30) (s : Machine)
    (hL : s.menu_left = L) (hT : s.menu_top = T) (hS : s.saved_chars = SC) :
    ((List.range 12).foldl
        (fun s row => (List.range 34).foldl (fun s col => restoreCell s row col) s)
        s).charbuf_back (L + c + (T + r) * 80) = SC r c := by
  have hsplit : List.range 12 = (List.range r ++ [r]) ++ List.range' (r + 1) (11 - r) := by
    rw [← List.range_succ, List.range_eq_range', List.range_eq_range']
    have := List.range'_append 0 (r + 1) (11 - r) 1
    simp at this
    rw [this]
    congr 1
    omega
  rw [hsplit, List.foldl_append, List.foldl_append]
  simp only [List.foldl_cons, List.foldl_nil]
  obtain ⟨⟨hml, hmt⟩, hsc⟩ := restore_rows_fields (List.range r) s
  -- the row r inner fold hits the target
  have hhit := restore_cols_hit r c L T SC hc hx hy _
    (by rw [hml, hL]) (by rw [hmt, hT]) (by rw [hsc, hS])
  -- fields after the row r fold
  obtain ⟨hml2, hmt2, _⟩ := restore_fold_fields r (List.range 34)
    (List.foldl (fun s row => (List.range 34).foldl
      (fun s col => restoreCell s row col) s) s (List.range r))
  -- suffix rows never touch the target
  have hsuffix : ∀ (ll : List Nat), (∀ row ∈ ll, r < row) → ∀ (u : Machine),
      u.menu_left = L → u.menu_top = T →
      (ll.foldl (fun s row => (List.range 34).foldl (fun s col => restoreCell s row col) s)
          u).charbuf_back (L + c + (T + r) * 80) = u.charbuf_back (L + c + (T + r) * 80) := by
    intro ll
    induction ll with
    | nil => intro _ u _ _; rfl
    | cons a tl ih =>
      intro hgt u hLu hTu
      rw [List.foldl_cons]
      obtain ⟨hmlu, hmtu, _⟩ := restore_fold_fields a (List.range 34) u
      rw [ih (fun row hm => hgt row (List.mem_cons_of_mem a hm)) _
        (by rw [hmlu]; exact hLu) (by rw [hmtu]; exact hTu)]
      refine restore_cols_miss a r c L T (List.range 34) (Or.inl ?_) hx hy u hLu hTu
      have := hgt a (List.mem_cons_self a tl)
      omega
  rw [hsuffix (List.range' (r + 1) (11 - r))
    (fun row hm => by have := List.mem_range'_1.mp hm; omega) _
    (by rw [hml2, hml, hL]) (by rw [hmt2, hmt, hT])]
  exact hhit

/-- Reading back any overlay cell after `restore_menu_region` yields the
character saved by `save_menu_region`. -/
lemma restore_menu_region_read (s : Machine) (r c : Nat) (hr : r < 12) (hc : c < 34)
    (hx : s.menu_left + c < 80) (hy : s.menu_top + r < 30) :
    (restore_menu_region s).charbuf_back (s.menu_left + c + (s.menu_top + r) * 80) =
      s.saved_chars r c := by
  unfold restore_menu_region
  simp only [safe_swap_charbuf]
  exact restore_rows_read r c s.menu_left s.menu_top s.saved_chars hr hc hx hy s rfl rfl rfl

/-! ## Claim C3 — back-to-front copy timing -/

lemma perform_swap_front (s : Machine) :
    (perform_swap s).charbuf_front = s.charbuf_back := rfl

/-- A dirty back buffer differing from the front buffer, as left by any
`set_char` since the last swap. -/
def dirtyState : Machine :=
  { machineBase with buffer_dirty := true, charbuf_back := updF (fun _ => 0) 0 65 }

/-- Claim C3 (counterexample): the bulk back-to-front copy is not confined to
the render loop's frame boundary — `safe_request_swap`, called from the
terminal loop on core 0, performs the copy immediately itself (`perform_swap()
// Forced immediate swap`), with no swap pending for the renderer at all. -/
theorem swap_boundary_counterexample :
    dirtyState.swap_pending = false ∧ dirtyState.charbuf_front 0 = 0 ∧
      (safe_request_swap dirtyState).charbuf_front 0 = 65 := by
  refine ⟨rfl, rfl, ?_⟩
  show (safe_request_swap dirtyState).charbuf_front 0 = 65
  decide

/-- Claim C3 (amended theorem): the renderer-side coordinator does swap only
at the frame boundary (`core1LineStep` is the identity whenever `y ≠ 0`), but
additionally the terminal side's `safe_request_swap` performs the back-to-front
copy immediately whenever its guard holds — so copies are not confined to the
frame boundary. -/
theorem swap_boundary_amended (s : Machine) (y : Nat) (hy : y ≠ 0)
    (hd : s.buffer_dirty = true) :
    core1LineStep s y = s ∧ (safe_request_swap s).charbuf_front = s.charbuf_back := by
  constructor
  · unfold core1LineStep
    rw [if_neg (fun h => hy h.1)]
  · unfold safe_request_swap
    rw [if_pos (Or.inl hd)]
    show (perform_swap (request_swap s)).charbuf_front = _
    rw [perform_swap_front, request_swap_charbuf]

/-- Claim C3 (amended theorem, witness): at a concrete dirty state and scan
line 1, the renderer step is a no-op while the terminal-side call has already
copied the back buffer to the front. -/
theorem swap_boundary_amended_witness :
    core1LineStep { machineBase with buffer_dirty := true } 1 =
        { machineBase with buffer_dirty := true } ∧
      (safe_request_swap { machineBase with buffer_dirty := true }).charbuf_front =
        ({ machineBase with buffer_dirty := true } : Machine).charbuf_back :=
  swap_boundary_amended { machineBase with buffer_dirty := true } 1 (by decide) rfl

/-! ## Claim C4 — cursor bounded to the grid -/

/-- Claim C4 (counterexample): the cursor does not stay inside the grid under
every input sequence — `CSI H` applies no upper clamp, so feeding
`ESC [ 9 9 H` from the initial state parks the cursor at row 98, far outside
the 30-row grid. -/
theorem cursor_bounded_counterexample :
    (runBytes initMachine [27, 91, 57, 57, 72]).term.cursor_y = 98 ∧
      ¬ ((runBytes initMachine [27, 91, 57, 57, 72]).term.cursor_y < 30) := by
  constructor
  · decide
  · decide

/-- Claim C4 (amended theorem): the relative CSI cursor moves `A`/`B`/`C`/`D`
are clamped and preserve the grid bounds, and `new_line` always lands inside
the grid; the absolute move `H`, by contrast, performs no upper clamp (the
counterexample above leaves the grid), so the original universal bound fails
only through `H`. -/
theorem cursor_bounded_amended (s : Machine) (params : List Nat) (c : Nat)
    (hx : s.term.cursor_x < 80) (hy : s.term.cursor_y < 30)
    (hc : c = 65 ∨ c = 66 ∨ c = 67 ∨ c = 68) :
    ((process_ansi_sequence s params c).term.cursor_x < 80 ∧
      (process_ansi_sequence s params c).term.cursor_y < 30) ∧
      (new_line s).term.cursor_x < 80 ∧ (new_line s).term.cursor_y < 30 := by
  refine ⟨?_, ?_⟩
  · unfold process_ansi_sequence
    rcases hc with h | h | h | h <;> subst h <;> norm_num <;>
      constructor <;> dsimp only <;> (try split) <;> (try split) <;> omega
  · rw [new_line_term]
    constructor
    · show (0 : Nat) < 80
      omega
    · show (if 30 ≤ s.term.cursor_y + 1 then 29 else s.term.cursor_y + 1) < 30
      split <;> omega

/-- Claim C4 (amended theorem, witness): at the startup machine with an
explicit `CSI 5 B` (cursor down), the clamped move and the line advance both
stay inside the grid. -/
theorem cursor_bounded_amended_witness :
    ((process_ansi_sequence initMachine [5] 66).term.cursor_x < 80 ∧
      (process_ansi_sequence initMachine [5] 66).term.cursor_y < 30) ∧
      (new_line initMachine).term.cursor_x < 80 ∧
      (new_line initMachine).term.cursor_y < 30 :=
  cursor_bounded_amended initMachine [5] 66 (by decide) (by decide)
    (Or.inr (Or.inl rfl))

/-! ## Claim C5 — overflow flag recovery -/

/-- The ring state reached by pushing 512 bytes into the empty queue: full
(`head = 511`, `tail = 0`) with the overflow flag raised. -/
lemma pushList_512_state :
    uartPushList initUart (List.replicate 512 7) =
      { buf := writeSeq (fun _ => 0) 0 ((List.replicate 512 7).take 511),
        head := 511, tail := 0, overflow := true } := by
  have hlen : ((List.replicate 512 7).take 511).length = 511 := by simp
  have hdrop : (List.replicate 512 7).drop 511 ≠ [] := by
    intro hc
    have := congrArg List.length hc
    simp at this
  conv_lhs => rw [← List.take_append_drop 511 (List.replicate 512 7)]
  rw [uartPushList_append, pushList_init _ (le_of_eq hlen), hlen,
    uartPushList_full _ _ rfl rfl hdrop]

/-- Claim C5 (counterexample): the flag does not stay set while more than a
quarter of capacity remains buffered — after overflowing a full queue, a
single consumed byte leaves 510 > 128 bytes buffered, yet the flag is already
cleared (the code's comparison is `> capacity/4`, not `< capacity/4`). -/
theorem overflow_recovery_counterexample :
    (uartPushList initUart (List.replicate 512 7)).overflow = true ∧
      128 < uartOcc (consumeStep machineBase
        (uartPushList initUart (List.replicate 512 7))).2 ∧
      (consumeStep machineBase (uartPushList initUart (List.replicate 512 7))).2.overflow
        = false := by
  rw [pushList_512_state]
  refine ⟨rfl, ?_, ?_⟩
  · show (128 : Int) < uartOcc _
    decide
  · decide

/-- Claim C5 (amended theorem): with the flag set, one iteration of the
consumer loop body clears it exactly when, after the tail advance, *more* than
a quarter of capacity (128 bytes) is still buffered; at or below 128 buffered
bytes the flag stays set — the comparison in the code is inverted with respect
to the claimed "drained below one quarter" recovery. -/
theorem overflow_recovery_amended (m : Machine) (u : UartState)
    (hov : u.overflow = true) (hne : u.tail ≠ u.head) :
    (consumeStep m u).2.overflow = false ↔ 128 < uartOcc (consumeStep m u).2 := by
  unfold consumeStep
  dsimp only
  by_cases hc : 128 < uartOcc { u with tail := (u.tail + 1) % 512 }
  · rw [if_pos ⟨hov, hc⟩]
    exact ⟨fun _ => hc, fun _ => rfl⟩
  · rw [if_neg (fun h => hc h.2)]
    constructor
    · intro h
      rw [hov] at h
      exact absurd h (by norm_num)
    · intro h
      exact absurd h hc

/-- Claim C5 (amended theorem, witness): a concrete full overflowed ring —
after one consumed byte 510 bytes remain and the flag is indeed cleared. -/
theorem overflow_recovery_amended_witness :
    (consumeStep machineBase
        { buf := fun _ => 7, head := 511, tail := 0, overflow := true }).2.overflow = false ↔
      128 < uartOcc (consumeStep machineBase
        { buf := fun _ => 7, head := 511, tail := 0, overflow := true }).2 :=
  overflow_recovery_amended machineBase
    { buf := fun _ => 7, head := 511, tail := 0, overflow := true } rfl (by decide)

/-! ## Claim C6 — CSI H semantics -/

/-- Claim C6 (counterexample): an absent `H` parameter does not clamp the
coordinate to 0 — after `ESC [ 5 ; 10 H` has moved the cursor to row 4,
column 9, a bare `ESC [ H` leaves it at (9, 4) instead of homing it to (0, 0):
the code only assigns a coordinate when the corresponding parameter count is
reached. -/
theorem csi_H_counterexample :
    (runBytes initMachine [27, 91, 53, 59, 49, 48, 72]).term.cursor_x = 9 ∧
      (runBytes initMachine [27, 91, 53, 59, 49, 48, 72]).term.cursor_y = 4 ∧
      (runBytes initMachine [27, 91, 53, 59, 49, 48, 72, 27, 91, 72]).term.cursor_x = 9 ∧
      (runBytes initMachine [27, 91, 53, 59, 49, 48, 72, 27, 91, 72]).term.cursor_y = 4 := by
  refine ⟨?_, ?_, ?_, ?_⟩ <;> decide

/-- Claim C6 (amended theorem): for a completed `ESC [ p1 ; p2 H` both
coordinates are assigned 1-based with a 0 parameter clamped to 0 (row
`p1-1`, column `p2-1`); but when a parameter is absent the corresponding
coordinate is left *unchanged*, not clamped to 0 — a bare `ESC [ H` moves
nothing. -/
theorem csi_H_amended (s : Machine) (p1 : Nat) (ds : List Nat)
    (h1 : s.term.suppress_next_cr = false) (h2 : s.term.skip_next_lf = false)
    (h3 : s.term.skip_next_cr = false) (he : s.term.escape_mode = true)
    (ha : s.term.ansi_mode = true) :
    (s.ansi_params = [p1] → s.ansi_buffer = ds → ds ≠ [] →
      (handle_char s 72).term.cursor_y = (if 0 < p1 then p1 - 1 else 0) ∧
        (handle_char s 72).term.cursor_x =
          (if 0 < atoiSat ds % 256 then atoiSat ds % 256 - 1 else 0)) ∧
    (s.ansi_params = [] → s.ansi_buffer = [] →
      (handle_char s 72).term.cursor_y = s.term.cursor_y ∧
        (handle_char s 72).term.cursor_x = s.term.cursor_x) := by
  constructor
  · intro hp hb hne
    have ht := congrArg PState.term (hc_csi_H_pair s p1 ds h1 h2 h3 he ha hp hb hne)
    exact ⟨congrArg Term.cursor_y ht, congrArg Term.cursor_x ht⟩
  · intro hp hb
    have ht := congrArg PState.term (hc_csi_H_none s h1 h2 h3 he ha hp hb)
    have hyy := congrArg Term.cursor_y ht
    have hxx := congrArg Term.cursor_x ht
    exact ⟨hyy, hxx⟩

/-- Claim C6 (amended theorem, witness): a concrete CSI state carrying the
committed parameter 5 and the pending digits "10" — `H` lands on row 4,
column 9. -/
theorem csi_H_amended_witness :
    (({ machineBase with
        term := { machineBase.term with escape_mode := true, ansi_mode := true }
        ansi_params := [5]
        ansi_buffer := [49, 48] } : Machine).ansi_params = [5] →
      ({ machineBase with
        term := { machineBase.term with escape_mode := true, ansi_mode := true }
        ansi_params := [5]
        ansi_buffer := [49, 48] } : Machine).ansi_buffer = [49, 48] → [49, 48] ≠ [] →
      (handle_char { machineBase with
        term := { machineBase.term with escape_mode := true, ansi_mode := true }
        ansi_params := [5]
        ansi_buffer := [49, 48] } 72).term.cursor_y = (if 0 < 5 then 5 - 1 else 0) ∧
        (handle_char { machineBase with
          term := { machineBase.term with escape_mode := true, ansi_mode := true }
          ansi_params := [5]
          ansi_buffer := [49, 48] } 72).term.cursor_x =
          (if 0 < atoiSat [49, 48] % 256 then atoiSat [49, 48] % 256 - 1 else 0)) ∧
    (({ machineBase with
        term := { machineBase.term with escape_mode := true, ansi_mode := true }
        ansi_params := [5]
        ansi_buffer := [49, 48] } : Machine).ansi_params = [] →
      ({ machineBase with
        term := { machineBase.term with escape_mode := true, ansi_mode := true }
        ansi_params := [5]
        ansi_buffer := [49, 48] } : Machine).ansi_buffer = [] →
      (handle_char { machineBase with
        term := { machineBase.term with escape_mode := true, ansi_mode := true }
        ansi_params := [5]
        ansi_buffer := [49, 48] } 72).term.cursor_y =
          ({ machineBase with
            term := { machineBase.term with escape_mode := true, ansi_mode := true }
            ansi_params := [5]
            ansi_buffer := [49, 48] } : Machine).term.cursor_y ∧
        (handle_char { machineBase with
          term := { machineBase.term with escape_mode := true, ansi_mode := true }
          ansi_params := [5]
          ansi_buffer := [49, 48] } 72).term.cursor_x =
          ({ machineBase with
            term := { machineBase.term with escape_mode := true, ansi_mode := true }
            ansi_params := [5]
            ansi_buffer := [49, 48] } : Machine).term.cursor_x) :=
  csi_H_amended { machineBase with
      term := { machineBase.term with escape_mode := true, ansi_mode := true }
      ansi_params := [5]
      ansi_buffer := [49, 48] } 5 [49, 48] rfl rfl rfl rfl rfl

/-! ## Claim C9 — implicit CR suppression -/

lemma pstate_setSkipLf_setSuppress (X : Machine) :
    pstate (setSkipLf (setSuppress X false) false) =
      { pstate X with
        term := { X.term with skip_next_lf := false, suppress_next_cr := false } } := rfl

/-- A line feed arriving while `skip_next_lf` is armed is consumed regardless
of the CR-suppression flag: both flags are cleared and nothing else changes. -/
lemma hc_lf_skip (s : Machine) (hsl : s.term.skip_next_lf = true) :
    pstate (handle_char s 10) =
      { pstate s with
        term := { s.term with skip_next_lf := false, suppress_next_cr := false } } := by
  unfold handle_char
  rw [if_neg (by norm_num)]
  rw [if_pos ⟨by
    rw [show (setSuppress (clearDrawnCursor s) false).term.skip_next_lf =
      (clearDrawnCursor s).term.skip_next_lf from rfl, clearDrawn_term]
    exact hsl, rfl⟩]
  rw [pstate_setSkipLf_setSuppress, pstate_clearDrawnCursor, clearDrawn_term]

/-- Claim C9 (theorem): in normal state with no suppression flags armed, a
carriage return advances the line once (`new_line` count up by one, column
homed) and arms the skip/suppress flags, so that an immediately following LF
or CR is swallowed: after `CR LF` and after `CR CR` the `new_line` count and
the cursor position are exactly those after the single CR. -/
theorem cr_suppression_confirmed (s : Machine)
    (h1 : s.term.suppress_next_cr = false) (h2 : s.term.skip_next_lf = false)
    (h3 : s.term.skip_next_cr = false) (he : s.term.escape_mode = false)
    (hf : s.fg_color_menu_mode = false) (hb : s.bg_color_menu_mode = false)
    (hm : s.cursor_menu_mode = false) (ht : s.theme_select_mode = false) :
    (handle_char s 13).nl_count = s.nl_count + 1 ∧
      (handle_char s 13).term.cursor_x = 0 ∧
      (runBytes s [13, 10]).nl_count = s.nl_count + 1 ∧
      (runBytes s [13, 10]).term.cursor_x = (handle_char s 13).term.cursor_x ∧
      (runBytes s [13, 10]).term.cursor_y = (handle_char s 13).term.cursor_y ∧
      (runBytes s [13, 13]).nl_count = s.nl_count + 1 ∧
      (runBytes s [13, 13]).term.cursor_x = (handle_char s 13).term.cursor_x ∧
      (runBytes s [13, 13]).term.cursor_y = (handle_char s 13).term.cursor_y := by
  have P := hc_cr s h1 h2 h3 he hf hb hm ht
  have hnl1 : (handle_char s 13).nl_count = s.nl_count + 1 := congrArg PState.nl P
  have ht13 := congrArg PState.term P
  have hx1 : (handle_char s 13).term.cursor_x = 0 := congrArg Term.cursor_x ht13
  have hsl1 : (handle_char s 13).term.skip_next_lf = true :=
    congrArg Term.skip_next_lf ht13
  have hsup1 : (handle_char s 13).term.suppress_next_cr = true :=
    congrArg Term.suppress_next_cr ht13
  have Q := hc_lf_skip (handle_char s 13) hsl1
  have R := hc_suppress_cr (handle_char s 13) hsup1
  have hnl2 := congrArg PState.nl Q
  have htQ := congrArg PState.term Q
  have hx2 := congrArg Term.cursor_x htQ
  have hy2 := congrArg Term.cursor_y htQ
  have hnl3 := congrArg PState.nl R
  have htR := congrArg PState.term R
  have hx3 := congrArg Term.cursor_x htR
  have hy3 := congrArg Term.cursor_y htR
  exact ⟨hnl1, hx1, hnl2.trans hnl1, hx2, hy2, hnl3.trans hnl1, hx3, hy3⟩

/-- Claim C9 (theorem, witness): from the startup machine, `CR LF` and
`CR CR` each advance the line exactly once and leave the cursor where the
single CR put it. -/
theorem cr_suppression_confirmed_witness :
    (handle_char machineBase 13).nl_count = machineBase.nl_count + 1 ∧
      (handle_char machineBase 13).term.cursor_x = 0 ∧
      (runBytes machineBase [13, 10]).nl_count = machineBase.nl_count + 1 ∧
      (runBytes machineBase [13, 10]).term.cursor_x =
        (handle_char machineBase 13).term.cursor_x ∧
      (runBytes machineBase [13, 10]).term.cursor_y =
        (handle_char machineBase 13).term.cursor_y ∧
      (runBytes machineBase [13, 13]).nl_count = machineBase.nl_count + 1 ∧
      (runBytes machineBase [13, 13]).term.cursor_x =
        (handle_char machineBase 13).term.cursor_x ∧
      (runBytes machineBase [13, 13]).term.cursor_y =
        (handle_char machineBase 13).term.cursor_y :=
  cr_suppression_confirmed machineBase rfl rfl rfl rfl rfl rfl rfl rfl

/-! ## Claim C8 — cursor drawing in modal modes -/

lemma clearDrawn_drawn (s : Machine) : (clearDrawnCursor s).cursor_drawn = false := by
  unfold clearDrawnCursor
  split
  · rfl
  · next h => simpa using h

lemma set_char_drawn (s : Machine) (x y c : Nat) :
    (set_char s x y c).cursor_drawn = s.cursor_drawn := by
  unfold set_char
  split <;> rfl

lemma set_colour_drawn (s : Machine) (x y a b : Nat) :
    (set_colour s x y a b).cursor_drawn = s.cursor_drawn := rfl

lemma request_swap_drawn (s : Machine) :
    (request_swap s).cursor_drawn = s.cursor_drawn := by
  unfold request_swap
  split <;> rfl

lemma safe_swap_drawn (s : Machine) :
    (safe_request_swap s).cursor_drawn = s.cursor_drawn := by
  unfold safe_request_swap
  split
  · show (perform_swap (request_swap s)).cursor_drawn = _
    rw [show (perform_swap (request_swap s)).cursor_drawn =
      (request_swap s).cursor_drawn from rfl, request_swap_drawn]
  · rfl

lemma restoreCell_drawn (s : Machine) (row col : Nat) :
    (restoreCell s row col).cursor_drawn = s.cursor_drawn := by
  unfold restoreCell
  dsimp only
  split
  · rw [set_colour_drawn, set_char_drawn]
  · rfl

lemma upd_dirty_drawn (X : Machine) (b : Bool) :
    ({ X with buffer_dirty := b } : Machine).cursor_drawn = X.cursor_drawn := rfl

lemma restore_region_drawn (s : Machine) :
    (restore_menu_region s).cursor_drawn = s.cursor_drawn := by
  unfold restore_menu_region
  simp only [safe_swap_drawn, upd_dirty_drawn]
  exact foldl_pres Machine.cursor_drawn _
    (fun s row => foldl_pres Machine.cursor_drawn _
      (fun s col => restoreCell_drawn s row col) (List.range 34) s) (List.range 12) s

lemma upd_term_counter_drawn (X : Machine) (T : Term) (n : Nat) :
    ({ X with term := T, cursor_blink_counter := n } : Machine).cursor_drawn =
      X.cursor_drawn := rfl

lemma upd_cursor_mode_drawn (X : Machine) (st : CursorStyle) (b : Bool) :
    ({ X with current_cursor := st, cursor_menu_mode := b } : Machine).cursor_drawn =
      X.cursor_drawn := rfl

lemma hcCursorMenu_drawn (s : Machine) (c : Nat) :
    (hcCursorMenu s c).cursor_drawn = s.cursor_drawn := by
  unfold hcCursorMenu
  split
  · dsimp only
    rw [upd_term_counter_drawn, restore_region_drawn, upd_cursor_mode_drawn]
  · rfl

/-- A machine with the foreground colour-pick menu open, a visible cursor and
the blink counter one tick below the threshold. -/
def modalBlinkState : Machine :=
  { machineBase with
    term := { machineBase.term with cursor_visible := true }
    fg_color_menu_mode := true
    cursor_blink_counter := 49 }

/-- Claim C8 (counterexample): the cursor *is* drawn while a modal menu is
active — with the foreground colour-pick mode open, the blink tick's guard
checks only `cursor_menu_mode`, so the next tick draws the cursor glyph into
the back buffer (`cursor_drawn` becomes true). -/
theorem modal_cursor_draw_counterexample :
    modalBlinkState.fg_color_menu_mode = true ∧
      modalBlinkState.cursor_drawn = false ∧
      (cursorBlinkTick modalBlinkState).cursor_drawn = true := by
  refine ⟨rfl, rfl, ?_⟩
  decide

/-- Claim C8 (amended theorem): only the cursor-*style* menu inhibits cursor
drawing — while `cursor_menu_mode` is active the blink tick is a no-op and
byte processing always leaves the cursor undrawn; the other modal modes
(theme and colour picks) do not inhibit the blink-tick draw, as the
counterexample shows. -/
theorem modal_cursor_draw_amended (s : Machine) (c : Nat)
    (hm : s.cursor_menu_mode = true)
    (h1 : s.term.suppress_next_cr = false) (h2 : s.term.skip_next_lf = false)
    (h3 : s.term.skip_next_cr = false) (he : s.term.escape_mode = false)
    (hf : s.fg_color_menu_mode = false) (hb : s.bg_color_menu_mode = false) :
    cursorBlinkTick s = s ∧ (handle_char s c).cursor_drawn = false := by
  constructor
  · unfold cursorBlinkTick
    rw [hm]
    rw [if_neg (by simp)]
  · rw [handle_char_route s c h1 h2 h3]
    simp only [clearDrawn_term, clearDrawn_fgm, clearDrawn_bgm, clearDrawn_cm,
      he, hf, hb, hm, Bool.false_eq_true, if_false, ite_false, if_true, ite_true]
    rw [hcCursorMenu_drawn, clearDrawn_drawn]

/-- Claim C8 (amended theorem, witness): with the cursor-style menu open, the
blink tick leaves the machine untouched and handling the byte `2` leaves the
cursor undrawn. -/
theorem modal_cursor_draw_amended_witness :
    cursorBlinkTick { machineBase with cursor_menu_mode := true } =
        { machineBase with cursor_menu_mode := true } ∧
      (handle_char { machineBase with cursor_menu_mode := true } 50).cursor_drawn = false :=
  modal_cursor_draw_amended { machineBase with cursor_menu_mode := true } 50
    rfl rfl rfl rfl rfl rfl rfl

/-! ## Claim C7 — colour-pick modal behaviour -/

lemma clearDrawn_ml (s : Machine) : (clearDrawnCursor s).menu_left = s.menu_left :=
  congrArg PState.ml (pstate_clearDrawnCursor s)

lemma clearDrawn_mt (s : Machine) : (clearDrawnCursor s).menu_top = s.menu_top :=
  congrArg PState.mt (pstate_clearDrawnCursor s)

lemma clearDrawn_sch (s : Machine) : (clearDrawnCursor s).saved_chars = s.saved_chars :=
  congrArg PState.sch (pstate_clearDrawnCursor s)

lemma upd_fgm_cbuf_charbuf (X : Machine) (b : Bool) (L : List Nat) :
    ({ X with fg_color_menu_mode := b, color_menu_buf := L } : Machine).charbuf_back =
      X.charbuf_back := rfl

lemma upd_bgm_cbuf_charbuf (X : Machine) (b : Bool) (L : List Nat) :
    ({ X with bg_color_menu_mode := b, color_menu_buf := L } : Machine).charbuf_back =
      X.charbuf_back := rfl

/-- `restore_menu_region_read` with the menu geometry and snapshot given by
equations, as they arise after the mode-branch rewrites. -/
lemma restore_read_gen (Z : Machine) (r c L T : Nat) (SC : Nat → Nat → Nat)
    (hr : r < 12) (hc : c < 34) (hml : Z.menu_left = L) (hmt : Z.menu_top = T)
    (hsc : Z.saved_chars = SC) (hx : L + c < 80) (hy : T + r < 30) :
    (restore_menu_region Z).charbuf_back (L + c + (T + r) * 80) = SC r c := by
  subst hml hmt hsc
  exact restore_menu_region_read Z r c hr hc hx hy

/-! Generic bridges between `pstate` projections and `Machine` fields, so
that facts extracted from the `pstate` branch lemmas convert to field
equations without forcing the unifier to evaluate `handle_char`. -/

lemma pstate_cfg_eq (X : Machine) : (pstate X).cfg = X.current_fg := rfl

lemma pstate_cbg_eq (X : Machine) : (pstate X).cbg = X.current_bg := rfl

lemma pstate_fgm_eq (X : Machine) : (pstate X).fgm = X.fg_color_menu_mode := rfl

lemma pstate_bgm_eq (X : Machine) : (pstate X).bgm = X.bg_color_menu_mode := rfl

lemma pstate_cbuf_eq (X : Machine) : (pstate X).cbuf = X.color_menu_buf := rfl

lemma pstate_params_eq (X : Machine) : (pstate X).params = X.ansi_params := rfl

/-- The foreground colour-pick mode with the digit `9` already accumulated. -/
def fgModeState : Machine :=
  { machineBase with fg_color_menu_mode := true, color_menu_buf := [57] }

/-- Claim C7 (counterexample): an out-of-range two-digit colour code is *not*
ignored with the mode still active — completing the code 99 (≥ 64) exits the
foreground colour-pick mode (the mode flag is cleared and the accumulator
reset unconditionally once two digits arrive). -/
theorem color_pick_modal_counterexample :
    fgModeState.fg_color_menu_mode = true ∧
      ¬ ((57 - 48) * 10 + (57 - 48) < 64) ∧
      (handle_char fgModeState 57).fg_color_menu_mode = false ∧
      (handle_char fgModeState 57).current_fg = fgModeState.current_fg := by
  have P := hc_fg_digit2 fgModeState 57 57 rfl rfl rfl rfl rfl (by norm_num) rfl
  have hf := congrArg PState.fgm P
  have hcf := congrArg PState.cfg P
  have e : (if (57 - 48) * 10 + (57 - 48) < 64 then (57 - 48) * 10 + (57 - 48)
      else fgModeState.current_fg) = fgModeState.current_fg := if_neg (by norm_num)
  exact ⟨rfl, by norm_num, (pstate_fgm_eq _).symm.trans hf,
    (pstate_cfg_eq _).symm.trans (hcf.trans e)⟩

/-- Claim C7 (amended theorem): in foreground- (resp. background-) colour-pick
mode, the second accumulated digit *always* exits the mode, clears the
accumulator and restores the saved overlay region; the two-digit value is
applied to the current fg (resp. bg) exactly when it is below 64, and an
out-of-range value leaves the colour unchanged — but it does not keep the mode
active.  ESC cancels the mode and restores the region without applying a
colour. -/
theorem color_pick_modal_amended (s : Machine) (d1 c r cc : Nat)
    (h1 : s.term.suppress_next_cr = false) (h2 : s.term.skip_next_lf = false)
    (h3 : s.term.skip_next_cr = false) (he : s.term.escape_mode = false)
    (hd : 48 ≤ c ∧ c ≤ 57) (hbuf : s.color_menu_buf = [d1])
    (hr : r < 12) (hcc : cc < 34)
    (hx : s.menu_left + cc < 80) (hy : s.menu_top + r < 30) :
    (s.fg_color_menu_mode = true →
      (handle_char s c).fg_color_menu_mode = false ∧
        (handle_char s c).color_menu_buf = [] ∧
        (handle_char s c).current_fg =
          (if (d1 - 48) * 10 + (c - 48) < 64 then (d1 - 48) * 10 + (c - 48)
           else s.current_fg) ∧
        (handle_char s c).charbuf_back (s.menu_left + cc + (s.menu_top + r) * 80) =
          s.saved_chars r cc ∧
        (handle_char s 27).fg_color_menu_mode = false ∧
        (handle_char s 27).current_fg = s.current_fg ∧
        (handle_char s 27).charbuf_back (s.menu_left + cc + (s.menu_top + r) * 80) =
          s.saved_chars r cc) ∧
    (s.fg_color_menu_mode = false → s.bg_color_menu_mode = true →
      (handle_char s c).bg_color_menu_mode = false ∧
        (handle_char s c).color_menu_buf = [] ∧
        (handle_char s c).current_bg =
          (if (d1 - 48) * 10 + (c - 48) < 64 then (d1 - 48) * 10 + (c - 48)
           else s.current_bg) ∧
        (handle_char s c).charbuf_back (s.menu_left + cc + (s.menu_top + r) * 80) =
          s.saved_chars r cc ∧
        (handle_char s 27).bg_color_menu_mode = false ∧
        (handle_char s 27).current_bg = s.current_bg ∧
        (handle_char s 27).charbuf_back (s.menu_left + cc + (s.menu_top + r) * 80) =
          s.saved_chars r cc) := by
  constructor
  · intro hfg
    have P := hc_fg_digit2 s d1 c h1 h2 h3 he hfg hd hbuf
    have E := hc_fg_esc s h1 h2 h3 he hfg
    refine ⟨(pstate_fgm_eq _).symm.trans (congrArg PState.fgm P),
      (pstate_cbuf_eq _).symm.trans (congrArg PState.cbuf P),
      (pstate_cfg_eq _).symm.trans (congrArg PState.cfg P), ?_,
      (pstate_fgm_eq _).symm.trans (congrArg PState.fgm E),
      (pstate_cfg_eq _).symm.trans (congrArg PState.cfg E), ?_⟩
    · rw [handle_char_route s c h1 h2 h3]
      simp only [clearDrawn_term, clearDrawn_fgm, he, hfg, Bool.false_eq_true, if_false,
        ite_false, if_true, ite_true]
      unfold hcFgMenu
      rw [if_pos ⟨hd, by rw [clearDrawn_cbuf, hbuf]; norm_num⟩]
      dsimp only
      rw [if_pos (by rw [clearDrawn_cbuf, hbuf]; norm_num)]
      simp only [clearDrawn_cbuf, hbuf]
      rw [upd_fgm_cbuf_charbuf]
      by_cases hv : (d1 - 48) * 10 + (c - 48) < 64
      · rw [if_pos (by simpa using hv)]
        exact restore_read_gen _ r cc s.menu_left s.menu_top s.saved_chars hr hcc
          (clearDrawn_ml s) (clearDrawn_mt s) (clearDrawn_sch s) hx hy
      · rw [if_neg (by simpa using hv)]
        exact restore_read_gen _ r cc s.menu_left s.menu_top s.saved_chars hr hcc
          (clearDrawn_ml s) (clearDrawn_mt s) (clearDrawn_sch s) hx hy
    · rw [handle_char_route s 27 h1 h2 h3]
      simp only [clearDrawn_term, clearDrawn_fgm, he, hfg, Bool.false_eq_true, if_false,
        ite_false, if_true, ite_true]
      unfold hcFgMenu
      rw [if_neg (by norm_num), if_neg (by norm_num), if_pos rfl]
      rw [upd_fgm_cbuf_charbuf]
      exact restore_read_gen _ r cc s.menu_left s.menu_top s.saved_chars hr hcc
        (clearDrawn_ml s) (clearDrawn_mt s) (clearDrawn_sch s) hx hy
  · intro hfg hbg
    have P := hc_bg_digit2 s d1 c h1 h2 h3 he hfg hbg hd hbuf
    have E := hc_bg_esc s h1 h2 h3 he hfg hbg
    refine ⟨(pstate_bgm_eq _).symm.trans (congrArg PState.bgm P),
      (pstate_cbuf_eq _).symm.trans (congrArg PState.cbuf P),
      (pstate_cbg_eq _).symm.trans (congrArg PState.cbg P), ?_,
      (pstate_bgm_eq _).symm.trans (congrArg PState.bgm E),
      (pstate_cbg_eq _).symm.trans (congrArg PState.cbg E), ?_⟩
    · rw [handle_char_route s c h1 h2 h3]
      simp only [clearDrawn_term, clearDrawn_fgm, clearDrawn_bgm, he, hfg, hbg,
        Bool.false_eq_true, if_false, ite_false, if_true, ite_true]
      unfold hcBgMenu
      rw [if_pos ⟨hd, by rw [clearDrawn_cbuf, hbuf]; norm_num⟩]
      dsimp only
      rw [if_pos (by rw [clearDrawn_cbuf, hbuf]; norm_num)]
      simp only [clearDrawn_cbuf, hbuf]
      rw [upd_bgm_cbuf_charbuf]
      by_cases hv : (d1 - 48) * 10 + (c - 48) < 64
      · rw [if_pos (by simpa using hv)]
        exact restore_read_gen _ r cc s.menu_left s.menu_top s.saved_chars hr hcc
          (clearDrawn_ml s) (clearDrawn_mt s) (clearDrawn_sch s) hx hy
      · rw [if_neg (by simpa using hv)]
        exact restore_read_gen _ r cc s.menu_left s.menu_top s.saved_chars hr hcc
          (clearDrawn_ml s) (clearDrawn_mt s) (clearDrawn_sch s) hx hy
    · rw [handle_char_route s 27 h1 h2 h3]
      simp only [clearDrawn_term, clearDrawn_fgm, clearDrawn_bgm, he, hfg, hbg,
        Bool.false_eq_true, if_false, ite_false, if_true, ite_true]
      unfold hcBgMenu
      rw [if_neg (by norm_num), if_neg (by norm_num), if_pos rfl]
      rw [upd_bgm_cbuf_charbuf]
      exact restore_read_gen _ r cc s.menu_left s.menu_top s.saved_chars hr hcc
        (clearDrawn_ml s) (clearDrawn_mt s) (clearDrawn_sch s) hx hy

/-- The foreground colour-pick mode with the digit `5` accumulated, for the
witness instantiation. -/
def fgWitState : Machine :=
  { machineBase with fg_color_menu_mode := true, color_menu_buf := [53] }

/-- Claim C7 (amended theorem, witness): completing the in-range code 55 in
foreground mode at a concrete state. -/
theorem color_pick_modal_amended_witness :
    (fgWitState.fg_color_menu_mode = true →
      (handle_char fgWitState 53).fg_color_menu_mode = false ∧
        (handle_char fgWitState 53).color_menu_buf = [] ∧
        (handle_char fgWitState 53).current_fg =
          (if (53 - 48) * 10 + (53 - 48) < 64 then (53 - 48) * 10 + (53 - 48)
           else fgWitState.current_fg) ∧
        (handle_char fgWitState 53).charbuf_back
            (fgWitState.menu_left + 0 + (fgWitState.menu_top + 0) * 80) =
          fgWitState.saved_chars 0 0 ∧
        (handle_char fgWitState 27).fg_color_menu_mode = false ∧
        (handle_char fgWitState 27).current_fg = fgWitState.current_fg ∧
        (handle_char fgWitState 27).charbuf_back
            (fgWitState.menu_left + 0 + (fgWitState.menu_top + 0) * 80) =
          fgWitState.saved_chars 0 0) ∧
    (fgWitState.fg_color_menu_mode = false → fgWitState.bg_color_menu_mode = true →
      (handle_char fgWitState 53).bg_color_menu_mode = false ∧
        (handle_char fgWitState 53).color_menu_buf = [] ∧
        (handle_char fgWitState 53).current_bg =
          (if (53 - 48) * 10 + (53 - 48) < 64 then (53 - 48) * 10 + (53 - 48)
           else fgWitState.current_bg) ∧
        (handle_char fgWitState 53).charbuf_back
            (fgWitState.menu_left + 0 + (fgWitState.menu_top + 0) * 80) =
          fgWitState.saved_chars 0 0 ∧
        (handle_char fgWitState 27).bg_color_menu_mode = false ∧
        (handle_char fgWitState 27).current_bg = fgWitState.current_bg ∧
        (handle_char fgWitState 27).charbuf_back
            (fgWitState.menu_left + 0 + (fgWitState.menu_top + 0) * 80) =
          fgWitState.saved_chars 0 0) :=
  color_pick_modal_amended fgWitState 53 53 0 0 rfl rfl rfl rfl (by norm_num) rfl
    (by norm_num) (by norm_num) (by decide) (by decide)

/-! ## Claim C10 — committed CSI parameter width -/

lemma pstate_term_eq (X : Machine) : (pstate X).term = X.term := rfl

lemma pstate_buffer_eq (X : Machine) : (pstate X).buffer = X.ansi_buffer := rfl

lemma runBytes_append (s : Machine) (l1 l2 : List Nat) :
    runBytes s (l1 ++ l2) = runBytes (runBytes s l1) l2 := by
  simp [runBytes, List.foldl_append]

/-- Feeding a run of digits in CSI mode appends them all to the numeral
accumulator (as long as the 15-digit limit is not hit) and changes nothing
else in the parser view. -/
lemma csi_accum (ds : List Nat) :
    ∀ s : Machine, s.term.suppress_next_cr = false → s.term.skip_next_lf = false →
      s.term.skip_next_cr = false → s.term.escape_mode = true → s.term.ansi_mode = true →
      s.ansi_buffer.length + ds.length ≤ 15 → (∀ d ∈ ds, 48 ≤ d ∧ d ≤ 57) →
      pstate (runBytes s ds) = { pstate s with buffer := s.ansi_buffer ++ ds } := by
  induction ds with
  | nil =>
    intro s _ _ _ _ _ _ _
    simp [runBytes, pstate]
  | cons d ds ih =>
    intro s h1 h2 h3 he ha hlen hd
    have hdd := hd d (List.mem_cons_self d ds)
    have hstep := hc_csi_digit s d h1 h2 h3 he ha hdd (by simp at hlen; omega)
    have ht := congrArg PState.term hstep
    have hbuf : (handle_char s d).ansi_buffer = s.ansi_buffer ++ [d] :=
      (pstate_buffer_eq _).symm.trans (congrArg PState.buffer hstep)
    have hs1 : (handle_char s d).term.suppress_next_cr = false := by
      rw [← pstate_term_eq, ht]
      exact h1
    have hs2 : (handle_char s d).term.skip_next_lf = false := by
      rw [← pstate_term_eq, ht]
      exact h2
    have hs3 : (handle_char s d).term.skip_next_cr = false := by
      rw [← pstate_term_eq, ht]
      exact h3
    have hse : (handle_char s d).term.escape_mode = true := by
      rw [← pstate_term_eq, ht]
      exact he
    have hsa : (handle_char s d).term.ansi_mode = true := by
      rw [← pstate_term_eq, ht]
      exact ha
    show pstate (runBytes (handle_char s d) ds) = _
    rw [ih (handle_char s d) hs1 hs2 hs3 hse hsa
      (by rw [hbuf]; simp at hlen ⊢; omega)
      (fun x hm => hd x (List.mem_cons_of_mem d hm))]
    rw [hstep, hbuf]
    simp

/-- Claim C10 (counterexample): the committed parameter is not `v mod 256` for
every digit string of at most 15 digits — the ten digits of `4294967296`
(value `2^32`, so `v mod 256 = 0`) commit as 255, because `atoi` saturates at
`LONG_MAX = 2147483647` before the 8-bit truncation. -/
theorem csi_param_width_counterexample :
    ([52, 50, 57, 52, 57, 54, 55, 50, 57, 54] : List Nat).length ≤ 15 ∧
      digitVal [52, 50, 57, 52, 57, 54, 55, 50, 57, 54] % 256 = 0 ∧
      (runBytes initMachine
        ([27, 91] ++ [52, 50, 57, 52, 57, 54, 55, 50, 57, 54] ++ [59])).ansi_params =
        [255] := by
  refine ⟨by norm_num, by decide, ?_⟩
  decide

/-- Claim C10 (amended theorem): a committed CSI numeric parameter is the
8-bit truncation of the *saturated* `atoi` value: for a digit string of at
most 15 digits with value `v`, the committed parameter is
`min v LONG_MAX mod 256`, which equals `v mod 256` exactly when
`v ≤ LONG_MAX = 2147483647` and is 255 for every larger value. -/
theorem csi_param_width_amended (s : Machine) (ds : List Nat)
    (h1 : s.term.suppress_next_cr = false) (h2 : s.term.skip_next_lf = false)
    (h3 : s.term.skip_next_cr = false) (he : s.term.escape_mode = true)
    (ha : s.term.ansi_mode = true) (hb : s.ansi_buffer = [])
    (hlen : ds.length ≤ 15) (hd : ∀ d ∈ ds, 48 ≤ d ∧ d ≤ 57)
    (hp : s.ansi_params.length < 4) :
    (runBytes s (ds ++ [59])).ansi_params = s.ansi_params ++ [atoiSat ds % 256] ∧
      (digitVal ds ≤ 2147483647 → atoiSat ds % 256 = digitVal ds % 256) ∧
      (2147483647 < digitVal ds → atoiSat ds % 256 = 255) := by
  have A := csi_accum ds s h1 h2 h3 he ha (by rw [hb]; simpa using hlen) hd
  have htA := congrArg PState.term A
  have hXp : (runBytes s ds).ansi_params = s.ansi_params :=
    (pstate_params_eq _).symm.trans (congrArg PState.params A)
  have hXb : (runBytes s ds).ansi_buffer = s.ansi_buffer ++ ds :=
    (pstate_buffer_eq _).symm.trans (congrArg PState.buffer A)
  rw [hb, List.nil_append] at hXb
  have hs1 : (runBytes s ds).term.suppress_next_cr = false := by
    rw [← pstate_term_eq, htA]
    exact h1
  have hs2 : (runBytes s ds).term.skip_next_lf = false := by
    rw [← pstate_term_eq, htA]
    exact h2
  have hs3 : (runBytes s ds).term.skip_next_cr = false := by
    rw [← pstate_term_eq, htA]
    exact h3
  have hse : (runBytes s ds).term.escape_mode = true := by
    rw [← pstate_term_eq, htA]
    exact he
  have hsa : (runBytes s ds).term.ansi_mode = true := by
    rw [← pstate_term_eq, htA]
    exact ha
  have S := hc_csi_semi (runBytes s ds) hs1 hs2 hs3 hse hsa
  refine ⟨?_, ?_, ?_⟩
  · have hrw : runBytes s (ds ++ [59]) = handle_char (runBytes s ds) 59 := by
      rw [runBytes_append]
      rfl
    rw [hrw]
    have hparams := (pstate_params_eq _).symm.trans (congrArg PState.params S)
    rw [hparams]
    show (if (runBytes s ds).ansi_params.length < 4 then
        (runBytes s ds).ansi_params ++ [atoiSat (runBytes s ds).ansi_buffer % 256]
      else (runBytes s ds).ansi_params) = _
    rw [hXp, hXb, if_pos hp]
  · intro h
    unfold atoiSat
    rw [Nat.min_def, if_pos h]
  · intro h
    unfold atoiSat
    rw [Nat.min_def, if_neg (by omega)]

/-- A machine sitting in CSI mode with empty accumulators, for the witness. -/
def csiWitState : Machine :=
  { machineBase with
    term := { machineBase.term with escape_mode := true, ansi_mode := true } }

/-- Claim C10 (amended theorem, witness): the digit string "257" commits as
`257 mod 256 = 1` (the value fits in `long`, so no saturation). -/
theorem csi_param_width_amended_witness :
    ((runBytes csiWitState ([50, 53, 55] ++ [59])).ansi_params =
        csiWitState.ansi_params ++ [atoiSat [50, 53, 55] % 256] ∧
      (digitVal [50, 53, 55] ≤ 2147483647 →
        atoiSat [50, 53, 55] % 256 = digitVal [50, 53, 55] % 256) ∧
      (2147483647 < digitVal [50, 53, 55] → atoiSat [50, 53, 55] % 256 = 255)) :=
  csi_param_width_amended csiWitState [50, 53, 55] rfl rfl rfl rfl rfl rfl
    (by norm_num) (by decide) (by decide)
